import Mathlib

/-!
Verification development for the Glyphdelve combat core
(`src/systems/CombatSystem.ts`, `src/systems/EnemyAI.ts`, `src/types` of the
SuperCastleCrawl repository).

The TypeScript code is shallowly embedded: JS numbers are modelled as
rationals (`ℚ`), in-place mutation becomes explicit state passing, and the
recursive damage pipeline takes an explicit fuel parameter (the recursion is
proved to stay within a constant fuel budget).  Object references into the
mutable simulation state are modelled by `EntRef` (the player slot or an index
into the entity array), mirroring how the TS code holds live references to
`state.player` / elements of `state.entities` and mutates them in place.

Fields of `RunState` marked GHOST below are instrumentation only: they record
observable facts about the execution (how often the pipeline was entered,
whether the fuel budget was hit, which entities had their on-kill/on-death
handlers invoked).  No embedded branch reads them.
-/

namespace Glyphdelve

/-- JS `Math.round`: round half toward positive infinity. -/
def jround (q : ℚ) : ℚ := ((q + 1/2).floor : ℤ)

/-- JS `Math.floor`. -/
def jfloor (q : ℚ) : ℚ := (q.floor : ℤ)

/-- `x || 0` for a field that may be `undefined`/`NaN` (both falsy): `none`
models the absent/NaN case. -/
def jOr : Option ℚ → ℚ
  | none => 0
  | some q => q

/-- `x || d` for a number-valued field (`0` is falsy in JS). -/
def jOrQ (q d : ℚ) : ℚ := if q = 0 then d else q

/-- `src/types` (part_001 l.458): 2-D vector. -/
structure Vec2 where
  x : ℚ
  y : ℚ


/-- Squared euclidean distance.  `CombatSystem.ts` `dist` returns
`Math.sqrt(dx*dx + dy*dy)`; we keep the square to stay in `ℚ`. -/
def dist2 (a b : Vec2) : ℚ :=
  (a.x - b.x) * (a.x - b.x) + (a.y - b.y) * (a.y - b.y)

/-- `dist a b < r`.  For every radius `r` this is equivalent to comparing the
real square root: `√d2 < r ↔ (0 ≤ r ∧ d2 < r·r)` (both sides false for
`r ≤ 0` since `√d2 ≥ 0`, and squaring is monotone on nonnegatives). -/
def distLt (a b : Vec2) (r : ℚ) : Bool :=
  decide (dist2 a b < r * r) && decide (0 ≤ r)

/-- `src/types` l.670: the game's hard caps (`HARD_CAPS`).  Only the fields
that exist in the source object are present here. -/
structure HardCaps where
  maxActiveSummons : ℕ
  minCooldown : ℚ
  maxMoveSpeedMult : ℚ
  maxAttackSpeedMult : ℚ
  maxPoisonStacks : ℚ
  maxAuraRadiusMult : ℚ
  maxDamageReduction : ℚ
  maxTriggerChainDepth : ℕ
  maxSameTriggerRepeats : ℕ
  maxSpawnedFromEvent : ℕ

def HARD_CAPS : HardCaps :=
  { maxActiveSummons := 8
    minCooldown := 0.4
    maxMoveSpeedMult := 1.2
    maxAttackSpeedMult := 1.0
    maxPoisonStacks := 12
    maxAuraRadiusMult := 0.8
    maxDamageReduction := 0.7
    maxTriggerChainDepth := 4
    maxSameTriggerRepeats := 2
    maxSpawnedFromEvent := 6 }

/-- `HARD_CAPS.maxBleedStacks` as read by `applyBleed`
(`CombatSystem.ts` l.582).  The `HARD_CAPS` object in `src/types` has NO
`maxBleedStacks` field, so the property access evaluates to `undefined`
(modelled `none`). -/
def HARD_CAPS_maxBleedStacks : Option ℚ := none

/-- `HARD_CAPS.maxSlowStacks` as read by `applySlow` (`CombatSystem.ts`
l.587); likewise absent from the source `HARD_CAPS` object. -/
def HARD_CAPS_maxSlowStacks : Option ℚ := none

/-- JS `Math.min(cap, x)` where `cap` may be `undefined`: `Math.min` coerces
`undefined` to `NaN` and any comparison with `NaN` yields `NaN`, so the
result is `NaN` (`none`) whenever the cap is absent. -/
def jsMin (cap : Option ℚ) (x : ℚ) : Option ℚ :=
  match cap with
  | none => none
  | some c => some (min c x)

/-- `src/systems/EnemyAI.ts` (second document) l.1145: in-flight ability
record stored on an enemy. -/
structure AbilityState where
  id : String
  phase : String
  timer : ℚ
  targetPos : Option Vec2 := none
  startPos : Option Vec2 := none
  windupProgress : Option ℚ := none


/-- Entity record.  The TS entity interfaces form a family
(`Entity`/`PlayerEntity`/`EnemyEntity`/`SummonEntity`/`ProjectileEntity`/
`HazardEntity`) plus ad-hoc dynamic fields written through `(e as any)`;
we flatten them into one record, as the code itself treats entities
dynamically.  Fields not read or written by the embedded operations
(xp/level/skill lists, elite modifiers, cooldown maps, tag lists, …) are
omitted.  Underscore-prefixed TS names lose the underscore
(`_weakenedMs` → `weakenedMs`, …). -/
structure Entity where
  id : String := ""
  type : String := "enemy"
  pos : Vec2 := ⟨0, 0⟩
  vel : Vec2 := ⟨0, 0⟩
  hp : ℚ := 0
  maxHp : ℚ := 0
  radius : ℚ := 0
  speed : ℚ := 0
  faction : String := "enemy"
  alive : Bool := true
  invulnMs : ℚ := 0
  flashMs : ℚ := 0
  deathAnimMs : ℚ := 0
  animState : String := "idle"
  rotation : ℚ := 0
  -- PlayerEntity fields
  armor : Option ℚ := none
  damageScalar : ℚ := 1
  items : List String := []
  passives : List (String × Bool) := []
  -- EnemyEntity fields (`def.damage` flattened to `defDamage`)
  poisonStacks : ℚ := 0
  defDamage : ℚ := 0
  -- dynamic status fields; `none` models JS `undefined` or `NaN` (both falsy)
  bleedStacks : Option ℚ := none
  slowStacks : Option ℚ := none
  slowDuration : Option ℚ := none
  brittle : Bool := false
  brittleDuration : Option ℚ := none
  exposed : Bool := false
  exposedDuration : Option ℚ := none
  stunned : Bool := false
  weakenedMs : ℚ := 0
  packlordMark : ℚ := 0
  -- player transient combat fields
  barkShieldHp : ℚ := 0
  barkShieldCooldown : ℚ := 0
  brambleCd : ℚ := 0
  secondsSinceHit : ℚ := 0
  fungalLinkMs : ℚ := 0
  thornMantleBuff : ℚ := 0
  thornMantleDamage : ℚ := 0
  thornMantleRadius : ℚ := 0
  -- ProjectileEntity / HazardEntity fields
  ownerId : String := ""
  damage : ℚ := 0
  piercing : Bool := false
  lifetime : ℚ := 0
  maxLifetime : ℚ := 0
  hitEntities : List String := []
  aoeOnImpact : Option ℚ := none
  tickRate : ℚ := 0
  tickTimer : ℚ := 0
  duration : ℚ := 0
  maxDuration : ℚ := 0
  -- EnemyAI in-flight ability
  activeAbility : Option AbilityState := none


/-- `items.find(i => i.def.id === iid)` truthiness (items flattened to their
definition ids). -/
def hasItem (e : Entity) (iid : String) : Bool := e.items.contains iid

/-- `passives.find(p => p.def.id === pid)` followed by `&& found.active`. -/
def activePassive (e : Entity) (pid : String) : Bool :=
  match e.passives.find? (fun p => p.1 == pid) with
  | some p => p.2
  | none => false

/-- `src/types` l.621: combat log entry.  The human-readable `details` string
is presentation-only and omitted. -/
structure CombatLogEntry where
  timestamp : ℚ
  type : String
  source : String
  target : Option String := none
  value : Option ℚ := none


/-- `CombatSystem.ts` l.26: trigger chain tracking context.  The optional TS
fields `depth`/`triggerCounts`/`spawnCount` are always initialised by
`newTriggerContext` before the pipeline reads them (`?? 0` / `?? new Map()`),
so they are total here; the map is an association list. -/
structure TriggerContext where
  depth : ℕ := 0
  triggerCounts : List (String × ℕ) := []
  spawnCount : ℕ := 0


/-- `CombatSystem.ts` l.35. -/
def newTriggerContext : TriggerContext := {}

/-- `triggerCounts.get(k) || 0`. -/
def cntOf (ctx : TriggerContext) (triggerId : String) : ℕ :=
  match ctx.triggerCounts.find? (fun p => p.1 == triggerId) with
  | some p => p.2
  | none => 0

/-- `Map.set k v`: replace the first binding or append a fresh one. -/
def assocSet : List (String × ℕ) → String → ℕ → List (String × ℕ)
  | [], k, v => [(k, v)]
  | p :: ps, k, v => if p.1 == k then (k, v) :: ps else p :: assocSet ps k v

/-- `CombatSystem.ts` l.39 `canTrigger`. -/
def canTrigger (ctx : TriggerContext) (triggerId : String) : Bool :=
  if ctx.depth ≥ HARD_CAPS.maxTriggerChainDepth then false
  else if cntOf ctx triggerId ≥ HARD_CAPS.maxSameTriggerRepeats then false
  else true

/-- `CombatSystem.ts` l.48 `recordTrigger`. -/
def recordTrigger (ctx : TriggerContext) (triggerId : String) : TriggerContext :=
  { ctx with
    depth := ctx.depth + 1
    triggerCounts := assocSet ctx.triggerCounts triggerId (cntOf ctx triggerId + 1) }

/-- `CombatSystem.ts` l.54 `canSpawn`. -/
def canSpawn (ctx : TriggerContext) : Bool :=
  ctx.spawnCount < HARD_CAPS.maxSpawnedFromEvent

/-- `CombatSystem.ts` l.59 `DamageEvent`. -/
structure DamageEvent where
  attackerId : String
  targetId : String
  baseDamage : ℚ
  damageType : String
  tags : List String := []
  isProjectile : Bool := false


/-- `CombatSystem.ts` l.68 `DamageResult`. -/
structure DamageResult where
  finalDamage : ℚ
  dodged : Bool
  killed : Bool
  blocked : Bool


/-- Simulation state (`src/types` l.600 `RunState`), restricted to the fields
the combat core reads/writes.  `nextEntityId` models the module-level id
counter of `EnemyAI.ts`.  The fields after the GHOST marker are
instrumentation (see the file header); no embedded branch reads them. -/
structure RunState where
  player : Entity := {}
  entities : List Entity := []
  combatLog : List CombatLogEntry := []
  runTime : ℚ := 0
  triggerChainDepths : List ℕ := []
  deathCauseTaxonomy : List (String × ℕ) := []
  nextEntityId : ℕ := 1000
  -- GHOST instrumentation:
  pipelineCalls : ℕ := 0
  fuelOut : Bool := false
  onKillFired : List String := []
  onDeathFired : List String := []


/-- The non-ghost part of a `RunState` (used to state that an operation leaves
the real state untouched even though ghost counters moved). -/
structure RealState where
  player : Entity
  entities : List Entity
  combatLog : List CombatLogEntry
  runTime : ℚ
  triggerChainDepths : List ℕ
  deathCauseTaxonomy : List (String × ℕ)
  nextEntityId : ℕ


def RunState.real (s : RunState) : RealState :=
  ⟨s.player, s.entities, s.combatLog, s.runTime, s.triggerChainDepths,
    s.deathCauseTaxonomy, s.nextEntityId⟩

/-- `engine/RunState.ts` l.125 `addCombatLog`: append the entry stamped with
`runTime`, keep the last 200 entries. -/
def addCombatLog (s : RunState) (type source : String)
    (target : Option String := none) (value : Option ℚ := none) : RunState :=
  let log := s.combatLog ++ [{ timestamp := s.runTime, type := type,
                               source := source, target := target, value := value }]
  { s with combatLog := if log.length > 200 then log.tail else log }

/-- A live reference to a mutable entity slot: `state.player` or an index
into `state.entities`.  This models TS object references, which stay attached
to the same slot across in-place mutations. -/
inductive EntRef where
  | player : EntRef
  | idx : ℕ → EntRef


/-- Replace the element at index `i` (identity when out of range). -/
def updIdx : List Entity → ℕ → (Entity → Entity) → List Entity
  | [], _, _ => []
  | e :: es, 0, f => f e :: es
  | e :: es, n + 1, f => e :: updIdx es n f

def getRef (s : RunState) : EntRef → Option Entity
  | .player => some s.player
  | .idx i => s.entities.get? i

/-- Read through a reference; the default is never hit on references produced
by `resolveId`. -/
def refGet (s : RunState) (r : EntRef) : Entity := (getRef s r).getD {}

def setRef (s : RunState) (r : EntRef) (f : Entity → Entity) : RunState :=
  match r with
  | .player => { s with player := f s.player }
  | .idx i => { s with entities := updIdx s.entities i f }

/-- `CombatSystem.ts` l.499 `findEntity`, returning the slot of the found
object: the player for id `'player'`, else the first array element with that
id.  (`none` models `undefined`.) -/
def resolveId (s : RunState) (id : String) : Option EntRef :=
  if id == "player" then some .player
  else match s.entities.findIdx? (fun e => e.id == id) with
       | some i => some (.idx i)
       | none => none

/-- `findEntity` as a value (used only in claim statements). -/
def findEntity (s : RunState) (id : String) : Option Entity :=
  (resolveId s id).map (refGet s)

/-- `CombatSystem.ts` l.100-103, the physical-armor reduction:
`Math.min(armor * 0.5, mitigated * HARD_CAPS.maxDamageReduction)`. -/
def armorReduction (armor mitigated : ℚ) : ℚ :=
  min (armor * 0.5) (mitigated * HARD_CAPS.maxDamageReduction)

/-- `CombatSystem.ts` l.103: `Math.max(1, mitigated - reduction)`. -/
def armorMitigate (mitigated armor : ℚ) : ℚ :=
  max 1 (mitigated - armorReduction armor mitigated)

/-- `CombatSystem.ts` l.580 `applyBleed`.  `HARD_CAPS.maxBleedStacks` does not
exist in `src/types` (cf. `HARD_CAPS_maxBleedStacks`), so `Math.min(undefined,
current + stackAmt)` evaluates to `NaN` (`none`). -/
def applyBleed (target : Entity) (stackAmt : ℚ) : Entity :=
  let current := jOr target.bleedStacks
  { target with bleedStacks := jsMin HARD_CAPS_maxBleedStacks (current + stackAmt) }

/-- `CombatSystem.ts` l.585 `applySlow` (same missing-cap situation). -/
def applySlow (target : Entity) (stackAmt : ℚ) (duration : ℚ := 4000) : Entity :=
  let current := jOr target.slowStacks
  { target with
    slowStacks := jsMin HARD_CAPS_maxSlowStacks (current + stackAmt)
    slowDuration := some duration }

/-- `CombatSystem.ts` l.591 `applyBrittle`. -/
def applyBrittle (target : Entity) (duration : ℚ := 3000) : Entity :=
  { target with brittle := true, brittleDuration := some duration }

/-- `CombatSystem.ts` l.596 `applyExposed`. -/
def applyExposed (target : Entity) (duration : ℚ := 4000) : Entity :=
  { target with exposed := true, exposedDuration := some duration }

/-- `CombatSystem.ts` l.601 `applyStun`. -/
def applyStun (target : Entity) : Entity := { target with stunned := true }

/-- `CombatSystem.ts` l.386 `processOnDebuffAppliedTriggers`. -/
def processOnDebuffAppliedTriggers (attacker target : EntRef) (_debuffType : String)
    (s : RunState) (_ctx : TriggerContext) : RunState :=
  let a := refGet s attacker
  -- Debilitating Presence: apply 1 Slow when any debuff is applied
  let s :=
    if activePassive a "debilitating_presence" then
      let s := setRef s target (fun t => applySlow t 1 4000)
      addCombatLog s "trigger" "debilitating_presence" (some (refGet s target).id)
    else s
  -- Packlord's Coronet: mark target for summons (6s, ms)
  let s :=
    if hasItem a "packlord_coronet" then
      let s := setRef s target (fun t => { t with packlordMark := 6000 })
      addCombatLog s "trigger" "packlord_coronet" (some (refGet s target).id)
    else s
  s

/-- The `targets.forEach` body of `processOnAreaDamageTriggers`
(`CombatSystem.ts` l.425-437). -/
def bleedLoop (attacker : EntRef) : List EntRef → RunState → TriggerContext → RunState
  | [], s, _ => s
  | t :: rest, s, ctx =>
    let te := refGet s t
    if te.type == "enemy" then
      let s := setRef s t (fun e => applyBleed e 1)
      let s := addCombatLog s "trigger" "bleeding_wounds" (some te.id)
      let s := processOnDebuffAppliedTriggers attacker t "bleed" s ctx
      bleedLoop attacker rest s ctx
    else bleedLoop attacker rest s ctx

/-- `CombatSystem.ts` l.415 `processOnAreaDamageTriggers`. -/
def processOnAreaDamageTriggers (attacker : EntRef) (targets : List EntRef)
    (_damage : ℚ) (s : RunState) (ctx : TriggerContext) : RunState :=
  let a := refGet s attacker
  if a.type == "player" then
    -- Bleeding Wounds: apply 1 Bleed to all enemies hit by AoE
    if activePassive a "bleeding_wounds" then bleedLoop attacker targets s ctx
    else s
  else s

/-- The Fungal Link heal of `processOnHitTriggers` (`CombatSystem.ts`
l.322-338): summon hits heal the player.  `aType` is the attacker's type
read before any state change. -/
def ohFungal (aType aFaction : String) (damage : ℚ) (s : RunState) : RunState :=
  if aType == "summon" ∧ aFaction == "player" ∧ damage > 0 then
    let fungalLinkMs := s.player.fungalLinkMs  -- `(state.player as any)._fungalLinkMs || 0`
    if fungalLinkMs > 0 then
      let heal := max 1 (jround (damage * 0.15))
      let s := { s with player :=
        { s.player with hp := min s.player.maxHp (s.player.hp + heal) } }
      addCombatLog s "heal" "fungal_link" (some "player") (some heal)
    else s
  else s

/-- The Venomweave Cloak poison of `processOnHitTriggers` (`CombatSystem.ts`
l.342-352).  `a` is the attacker entity read at handler entry. -/
def ohVenom (a : Entity) (attacker target : EntRef) (s : RunState)
    (ctx : TriggerContext) : RunState :=
  if hasItem a "venomweave_cloak" ∧ (refGet s target).type == "enemy" then
    let s := setRef s target (fun e =>
      { e with poisonStacks := min HARD_CAPS.maxPoisonStacks (e.poisonStacks + 1) })
    processOnDebuffAppliedTriggers attacker target "poison" s ctx
  else s

/-- The Spore Sac detonation of `processOnHitTriggers` (`CombatSystem.ts`
l.354-365): 30 direct damage, no kill check of its own (the pipeline's
lethal check runs afterwards). -/
def ohSpore (a : Entity) (target : EntRef) (s : RunState) : RunState :=
  if hasItem a "spore_sac" ∧ (refGet s target).type == "enemy" then
    let enemy := refGet s target
    if enemy.poisonStacks ≥ HARD_CAPS.maxPoisonStacks then
      let s := setRef s target (fun e => { e with hp := e.hp - 30, flashMs := 200 })
      addCombatLog s "trigger" "item" (some enemy.id) (some 30)
    else s
  else s

/-- The Brittle Fury block of `processOnHitTriggers` (`CombatSystem.ts`
l.367-380): `(damage as any)._isMelee` is a property access on a primitive
number, hence undefined, hence `isMelee` is always false and the body is
dead code in the source as well. -/
def ohBrittleFury (a : Entity) (attacker target : EntRef) (s : RunState)
    (ctx : TriggerContext) : RunState :=
  if activePassive a "brittle_fury" ∧ (refGet s target).type == "enemy" then
    let isMelee := false
    if isMelee then
      let s := setRef s target (fun e => applyBrittle e 3000)
      let s := addCombatLog s "trigger" "brittle_fury" (some (refGet s target).id)
      processOnDebuffAppliedTriggers attacker target "brittle" s ctx
    else s
  else s

/-- `CombatSystem.ts` l.318 `processOnHitTriggers`. -/
def processOnHitTriggers (attacker target : EntRef) (damage : ℚ)
    (s : RunState) (ctx : TriggerContext) : RunState :=
  let a := refGet s attacker
  let s := ohFungal a.type a.faction damage s
  if a.type == "player" then
    ohBrittleFury a attacker target
      (ohSpore a target (ohVenom a attacker target s ctx)) ctx
  else s

/-- The `nearby.forEach` of Toxic Proliferation (`CombatSystem.ts`
l.464-466). -/
def spreadLoop (spreadStacks : ℚ) : List ℕ → RunState → RunState
  | [], s => s
  | i :: rest, s =>
    spreadLoop spreadStacks rest (setRef s (.idx i) (fun e =>
      { e with poisonStacks := min HARD_CAPS.maxPoisonStacks (e.poisonStacks + spreadStacks) }))

/-- `CombatSystem.ts` l.442 `processOnKillTriggers`. -/
def processOnKillTriggers (attacker target : EntRef)
    (s : RunState) (ctx : TriggerContext) : RunState :=
  let a := refGet s attacker
  if a.faction == "player" then
    -- Feral Momentum (`const player = state.player`)
    let s :=
      if activePassive s.player "feral_momentum" then
        { s with player := { s.player with
            damageScalar := min (s.player.damageScalar + 0.08) (1.0 + 0.08 * 5) } }
      else s
    -- Toxic Proliferation
    let t := refGet s target
    if t.type == "enemy" then
      if activePassive s.player "toxic_proliferation" ∧ t.poisonStacks > 0 then
        let spreadStacks := jfloor (t.poisonStacks * 0.5)
        if spreadStacks > 0 ∧ canSpawn ctx then
          let nearby := (List.range s.entities.length).filter (fun i =>
            let e := refGet s (.idx i)
            e.alive && e.faction == "enemy" && e.id != t.id && distLt e.pos t.pos 80)
          spreadLoop spreadStacks nearby s
        else s
      else s
    else s
  else s

/-- The Death Blossom `forEach` (`CombatSystem.ts` l.483-494). -/
def blossomLoop : List ℕ → RunState → RunState
  | [], s => s
  | i :: rest, s =>
    let s := setRef s (.idx i) (fun e => { e with hp := e.hp - 15, flashMs := 100 })
    let e := refGet s (.idx i)
    let s :=
      if e.hp ≤ 0 then
        setRef s (.idx i) (fun e =>
          { e with hp := 0, alive := false, animState := "death", deathAnimMs := 500 })
      else s
    blossomLoop rest s

/-- `CombatSystem.ts` l.473 `processOnDeathTriggers`. -/
def processOnDeathTriggers (target _attacker : EntRef)
    (s : RunState) (_ctx : TriggerContext) : RunState :=
  let t := refGet s target
  if t.type == "summon" ∧ t.faction == "player" then
    -- Death Blossom: AoE at the summon's death position
    if activePassive s.player "death_blossom" then
      let hit := (List.range s.entities.length).filter (fun i =>
        let e := refGet s (.idx i)
        e.alive && e.faction == "enemy" && distLt e.pos t.pos 48)
      blossomLoop hit s
    else s
  else s

/-- The type of the recursive pipeline entry threaded into the one handler
that re-enters it (Thorn Mantle). -/
abbrev Recurse := DamageEvent → RunState → TriggerContext → DamageResult × RunState × TriggerContext

/-- The `dmgEvent` record built by the Thorn Mantle loop
(`CombatSystem.ts` l.293-299). -/
def thornDmgEvent (thornDamage : ℚ) (e p : Entity) : DamageEvent :=
  { attackerId := "player", targetId := e.id,
    baseDamage := thornDamage * p.damageScalar,
    damageType := "physical", tags := ["AOE", "OnDamageTaken"],
    isProjectile := false }

/-- The Thorn Mantle `state.entities.forEach` (`CombatSystem.ts` l.290-303).
`recurse` is the nested `processDamage(dmgEvent, state, ctx)` call. -/
def thornLoop (recurse : Recurse) (playerRef : EntRef) (thornDamage thornRadius : ℚ) :
    List ℕ → RunState → TriggerContext → List EntRef →
    RunState × TriggerContext × List EntRef
  | [], s, ctx, hits => (s, ctx, hits)
  | i :: rest, s, ctx, hits =>
    let e := refGet s (.idx i)
    let p := refGet s playerRef
    if e.alive && e.faction == "enemy" && distLt e.pos p.pos thornRadius then
      let r := recurse (thornDmgEvent thornDamage e p) s ctx
      thornLoop recurse playerRef thornDamage thornRadius rest r.2.1 r.2.2 (hits ++ [EntRef.idx i])
    else thornLoop recurse playerRef thornDamage thornRadius rest s ctx hits

/-- The Guardian Bark Amulet reaction (`CombatSystem.ts` l.231-247).
`!(player as any)._barkShieldHp`: a number is falsy exactly when it is 0
(the field is only ever assigned plain numbers).  `player.hp /
player.maxHp` uses rational division. -/
def odtBark (target : EntRef) (s : RunState) : RunState :=
  let p := refGet s target
  if hasItem p "guardian_bark_amulet" then
    let cd := p.barkShieldCooldown
    if p.hp / p.maxHp ≤ 0.3 ∧ cd ≤ 0 ∧ p.barkShieldHp = 0 then
      let s := setRef s target (fun p =>
        { p with barkShieldHp := 25, barkShieldCooldown := 60 })
      addCombatLog s "trigger" "item"
    else s
  else s

/-- The Bramble Heart flat reflect (`CombatSystem.ts` l.249-264). -/
def odtBramble (target attacker : EntRef) (s : RunState) : RunState :=
  let p := refGet s target
  let a := refGet s attacker
  let brambleCd := p.brambleCd
  if hasItem p "bramble_heart" ∧ a.faction == "enemy" ∧ brambleCd ≤ 0 then
    let reflectDmg : ℚ := 6
    let s := setRef s attacker (fun a => { a with hp := a.hp - reflectDmg })
    let s := setRef s target (fun p => { p with brambleCd := 0.5 })
    let s := addCombatLog s "trigger" "item"
    let a := refGet s attacker
    if a.hp ≤ 0 then
      setRef s attacker (fun a =>
        { a with hp := 0, alive := false, animState := "death", deathAnimMs := 500 })
    else s
  else s

/-- The Thorned Hide reflect (`CombatSystem.ts` l.266-280). -/
def odtThorned (target attacker : EntRef) (damage : ℚ) (s : RunState) : RunState :=
  let p := refGet s target
  let a := refGet s attacker
  if activePassive p "thorned_hide" ∧ a.faction == "enemy" then
    let reflectDmg := jround (damage * 0.25)
    if reflectDmg > 0 then
      let s := setRef s attacker (fun a => { a with hp := a.hp - reflectDmg })
      let a := refGet s attacker
      if a.hp ≤ 0 then
        setRef s attacker (fun a =>
          { a with hp := 0, alive := false, animState := "death", deathAnimMs := 500 })
      else s
    else s
  else s

def odtReflexes (target attacker : EntRef) (damage : ℚ) (s : RunState) : RunState :=
  -- seconds-since-hit reset; Spore Mantle is looked up but the spawned
  -- poison cloud is "handled by the effect system" (source comment).
  let s := setRef s target (fun p => { p with secondsSinceHit := 0 })
  odtThorned target attacker damage
    (odtBramble target attacker (odtBark target s))

/-- The Thorn Mantle reaction of `processOnDamageTakenTriggers`
(`CombatSystem.ts` l.284-312), the only part that recurses into
`processDamage` (`_thornMantleBuff && _thornMantleBuff > 0`: on ℚ,
truthy-and-positive is just positive). -/
def odtThorn (recurse : Recurse) (target : EntRef) (s : RunState)
    (ctx : TriggerContext) : RunState × TriggerContext :=
  let p := refGet s target
  if p.thornMantleBuff > 0 then
    let thornDamage := jOrQ p.thornMantleDamage 8
    let thornRadius := jOrQ p.thornMantleRadius 40
    let tl :=
      thornLoop recurse target thornDamage thornRadius
        (List.range s.entities.length) s ctx []
    let hitTargets := tl.2.2
    if hitTargets.length > 0 then
      let s := addCombatLog tl.1 "trigger" "thorn_mantle"
      (processOnAreaDamageTriggers target hitTargets thornDamage s tl.2.1, tl.2.1)
    else (tl.1, tl.2.1)
  else (s, ctx)

/-- `CombatSystem.ts` l.219 `processOnDamageTakenTriggers`. -/
def processOnDamageTakenTriggers (recurse : Recurse) (target attacker : EntRef)
    (damage : ℚ) (s : RunState) (ctx : TriggerContext) : RunState × TriggerContext :=
  let t := refGet s target
  if t.type == "player" then
    odtThorn recurse target (odtReflexes target attacker damage s) ctx
  else (s, ctx)

/-- The zero/false result of an aborted pipeline call. -/
def zeroResult : DamageResult :=
  { finalDamage := 0, dodged := false, killed := false, blocked := false }

/-- Pipeline step 3 (`CombatSystem.ts` l.95-137, up to and including the
summon item bonuses): the purely numeric part of mitigation. -/
def mitigationStage (s : RunState) (event : DamageEvent)
    (targetEnt attackerEnt : Entity) : ℚ :=
  let mitigated := event.baseDamage
  let mitigated :=
    if attackerEnt.type == "enemy" ∧ attackerEnt.weakenedMs > 0 then mitigated * 0.8
    else mitigated
  let mitigated :=
    if event.damageType == "physical" ∧ targetEnt.armor.isSome then
      armorMitigate mitigated (jOr targetEnt.armor)
    else mitigated
  -- player damage scalar for player attacks and summon item bonuses
  let mitigated :=
    if attackerEnt.faction == "player" ∧ attackerEnt.type == "player" then
      mitigated * attackerEnt.damageScalar
    else mitigated
  if attackerEnt.faction == "player" ∧ attackerEnt.type == "summon" then
    let m := if hasItem s.player "hive_mind_crown" then mitigated * 1.10 else mitigated
    -- Packlord's Coronet: marked targets take +30% from summons
    if hasItem s.player "packlord_coronet" ∧ targetEnt.packlordMark ≠ 0 then m * 1.30
    else m
  else mitigated

/-- Brittle consumption and Exposed multiplier (`CombatSystem.ts`
l.121-137). -/
def brittleExposedStage (s : RunState) (target : EntRef) (targetEnt : Entity)
    (mitigated : ℚ) : RunState × ℚ :=
  let r :=
    if targetEnt.brittle then
      let s := setRef s target (fun t => { t with brittle := false, brittleDuration := none })
      (addCombatLog s "trigger" "brittle" (some targetEnt.id), mitigated * 1.50)
    else (s, mitigated)
  if targetEnt.exposed then (r.1, r.2 * 1.25) else r

/-- Bark-shield absorption for player targets (`CombatSystem.ts`
l.142-156). -/
def shieldStage (s : RunState) (target : EntRef) (targetEnt : Entity)
    (finalDamage : ℚ) : RunState × ℚ :=
  if targetEnt.type == "player" then
    let shield := (refGet s target).barkShieldHp  -- `_barkShieldHp || 0`
    if shield > 0 then
      let absorbed := min shield finalDamage
      let s := setRef s target (fun t => { t with barkShieldHp := shield - absorbed })
      let finalDamage := finalDamage - absorbed
      let s := if absorbed > 0 then addCombatLog s "trigger" "item" else s
      (s, finalDamage)
    else (s, finalDamage)
  else (s, finalDamage)

/-- Pipeline steps 5 and 6 (`CombatSystem.ts` l.170-180): the reactive
triggers, defender-attributed first. -/
def reactiveStage (recurse : Recurse) (target attacker : EntRef)
    (finalDamage : ℚ) (s : RunState) (ctx : TriggerContext) :
    RunState × TriggerContext :=
  -- 5. OnDamageTaken triggers
  let r1 :=
    if canTrigger ctx "OnDamageTaken" then
      let ctx := recordTrigger ctx "OnDamageTaken"
      processOnDamageTakenTriggers recurse target attacker finalDamage s ctx
    else (s, ctx)
  -- 6. OnHit (attacker) triggers
  if canTrigger r1.2 "OnHit" then
    let ctx := recordTrigger r1.2 "OnHit"
    (processOnHitTriggers attacker target finalDamage r1.1 ctx, ctx)
  else r1

/-- Pipeline steps 8 and 9 (`CombatSystem.ts` l.185-209): the lethal check
with the OnKill/OnDeath triggers; returns the `killed` flag.  The
`onKillFired`/`onDeathFired` appends are GHOST markers of the two handler
invocations. -/
def lethalStage (target attacker : EntRef) (targetEnt attackerEnt : Entity)
    (s : RunState) (ctx : TriggerContext) : RunState × TriggerContext × Bool :=
  let killed := decide ((refGet s target).hp ≤ 0)
  if killed then
    let s := setRef s target (fun t =>
      { t with hp := 0, alive := false, animState := "death", deathAnimMs := 500 })
    -- 9. OnKill / OnDeath
    let r1 :=
      if canTrigger ctx "OnKill" then
        let ctx := recordTrigger ctx "OnKill"
        let s := { s with onKillFired := s.onKillFired ++ [targetEnt.id] }  -- GHOST
        (processOnKillTriggers attacker target s ctx, ctx)
      else (s, ctx)
    let r2 :=
      if canTrigger r1.2 "OnDeath" then
        let ctx := recordTrigger r1.2 "OnDeath"
        let s := { r1.1 with onDeathFired := r1.1.onDeathFired ++ [targetEnt.id] }  -- GHOST
        (processOnDeathTriggers target attacker s ctx, ctx)
      else r1
    (addCombatLog r2.1 "kill" attackerEnt.id (some targetEnt.id), r2.2, killed)
  else (s, ctx, killed)

/-- `CombatSystem.ts` l.75 `processDamage`, the damage pipeline.  The first
argument is fuel for the (bounded) recursion through Thorn Mantle; the
public entry `processDamageTop` supplies a budget that is proved never to
run out.  The `pipelineCalls` update is GHOST instrumentation counting
pipeline entries. -/
def processDamage : ℕ → DamageEvent → RunState → TriggerContext →
    DamageResult × RunState × TriggerContext
  | 0, _, s, ctx =>
    (zeroResult, { s with pipelineCalls := s.pipelineCalls + 1, fuelOut := true }, ctx)
  | fuel + 1, event, s, ctx =>
    let s := { s with pipelineCalls := s.pipelineCalls + 1 }  -- GHOST
    match resolveId s event.targetId, resolveId s event.attackerId with
    | some target, some attacker =>
      let targetEnt := refGet s target
      let attackerEnt := refGet s attacker
      -- 1. Target validity (`!target || !target.alive || !attacker`)
      if ¬ targetEnt.alive then (zeroResult, s, ctx)
      else
      -- 2. Avoidance check (simple dodge based on invuln)
      if targetEnt.invulnMs > 0 then
        ({ finalDamage := 0, dodged := true, killed := false, blocked := false }, s, ctx)
      else
      -- 3. Mitigation, Brittle consumption, Exposed
      let mitigated := mitigationStage s event targetEnt attackerEnt
      let bm := brittleExposedStage s target targetEnt mitigated
      -- 4. Damage application
      let finalDamage := jround bm.2
      let sh := shieldStage bm.1 target targetEnt finalDamage
      let finalDamage := sh.2
      let s := setRef sh.1 target (fun t =>
        { t with hp := t.hp - finalDamage, flashMs := 150, animState := "hit" })
      let s := addCombatLog s "damage" attackerEnt.id (some targetEnt.id) (some finalDamage)
      -- 5./6. Reactive triggers (OnDamageTaken, then OnHit)
      let rc := reactiveStage (processDamage fuel) target attacker finalDamage s ctx
      -- 7. OnHitTaken: already handled in OnDamageTaken (source comment)
      -- 8./9. Lethal check and death triggers
      let lt := lethalStage target attacker targetEnt attackerEnt rc.1 rc.2
      let killed := lt.2.2
      -- Record trigger depth
      let s :=
        if lt.2.1.depth > 0 then
          { lt.1 with triggerChainDepths := lt.1.triggerChainDepths ++ [lt.2.1.depth] }
        else lt.1
      ({ finalDamage := finalDamage, dodged := false, killed := killed, blocked := false },
        s, lt.2.1)
    | _, _ => (zeroResult, s, ctx)

/-- `processDamage(event, state)` as external callers invoke it (no caller
context, so `newTriggerContext()` is created).  The fuel budget 5 is proved
sufficient: see the no-fuel-out theorem for claim C2. -/
def processDamageTop (event : DamageEvent) (s : RunState) : DamageResult × RunState :=
  let r := processDamage 5 event s newTriggerContext
  (r.1, r.2.1)

/-- `map.get(k) || 0` on the death-cause taxonomy. -/
def mapGetN (m : List (String × ℕ)) (k : String) : ℕ :=
  match m.find? (fun p => p.1 == k) with
  | some p => p.2
  | none => 0

/-- The `state.entities.forEach` body of `processPoison` (`CombatSystem.ts`
l.510-535), iterated over entity slots. -/
def poisonLoop (dt : ℚ) : List ℕ → RunState → RunState
  | [], s => s
  | i :: rest, s =>
    let e := refGet s (.idx i)
    if ¬ e.alive ∨ e.type ≠ "enemy" then poisonLoop dt rest s
    else if e.poisonStacks > 0 then
      -- 2 damage per stack per second
      let poisonDmg := e.poisonStacks * 2 * dt
      let s := setRef s (.idx i) (fun e => { e with hp := e.hp - poisonDmg })
      let e := refGet s (.idx i)
      let s :=
        if e.hp ≤ 0 then
          let s := setRef s (.idx i) (fun e =>
            { e with hp := 0, alive := false, animState := "death", deathAnimMs := 500 })
          let s := addCombatLog s "kill" "poison" (some e.id)
          { s with deathCauseTaxonomy :=
              assocSet s.deathCauseTaxonomy "DoT" (mapGetN s.deathCauseTaxonomy "DoT" + 1) }
        else s
      poisonLoop dt rest s
    else poisonLoop dt rest s

/-- `CombatSystem.ts` l.510 `processPoison`. -/
def processPoison (s : RunState) (dt : ℚ) : RunState :=
  poisonLoop dt (List.range s.entities.length) s

/-- The `state.entities.forEach` body of `processBleed` (`CombatSystem.ts`
l.538-578). -/
def bleedTickLoop : List ℕ → RunState → RunState
  | [], s => s
  | i :: rest, s =>
    let e := refGet s (.idx i)
    if ¬ e.alive then bleedTickLoop rest s
    else
      let bleedStacks := jOr e.bleedStacks
      if bleedStacks > 0 then
        let bleedDmg := bleedStacks
        let s := setRef s (.idx i) (fun e => { e with hp := e.hp - bleedDmg, flashMs := 150 })
        let s := addCombatLog s "damage" "bleed" (some e.id) (some bleedDmg)
        -- Reduce bleed by 1
        let s := setRef s (.idx i) (fun e =>
          { e with bleedStacks := some (max 0 (bleedStacks - 1)) })
        let e := refGet s (.idx i)
        let s :=
          if e.hp ≤ 0 then
            let s := setRef s (.idx i) (fun e =>
              { e with hp := 0, alive := false, animState := "death", deathAnimMs := 500 })
            if e.type == "enemy" then
              let s := addCombatLog s "kill" "bleed" (some e.id)
              { s with deathCauseTaxonomy :=
                  assocSet s.deathCauseTaxonomy "DoT" (mapGetN s.deathCauseTaxonomy "DoT" + 1) }
            else s
          else s
        bleedTickLoop rest s
      else bleedTickLoop rest s

/-- `CombatSystem.ts` l.538 `processBleed`. -/
def processBleed (s : RunState) : RunState :=
  bleedTickLoop (List.range s.entities.length) s

/-! ## Enemy ability state machine (`src/systems/EnemyAI.ts`, second document)

`executeBurstFire` and the ranged AI use `Math.atan2`/`cos`/`sin`, which have
no exact rational embedding; the trigonometric functions are therefore passed
in as a parameter record `Trig`.  None of the abilities examined by the claims
(blink, charge, lunge, retreat) evaluate them. -/

structure Trig where
  cos : ℚ → ℚ
  sin : ℚ → ℚ
  atan2 : ℚ → ℚ → ℚ

/-- `EnemyAI.ts` l.1917: `const ARENA_SIZE = 13 * 32`. -/
def ARENA_SIZE : ℚ := 13 * 32

/-- `EnemyAI.ts` l.1918 `clampToArena`. -/
def clampToArena (e : Entity) : Entity :=
  { e with pos := ⟨max (-ARENA_SIZE) (min ARENA_SIZE e.pos.x),
                   max (-ARENA_SIZE) (min ARENA_SIZE e.pos.y)⟩ }

/-- `EnemyAI.ts` l.1028 `ABILITY_TIMING` (seconds). -/
structure AbilityTiming where
  BLINK_TELEGRAPH : ℚ
  CHARGE_TELEGRAPH : ℚ
  LUNGE_TELEGRAPH : ℚ
  BURST_FIRE_TELEGRAPH : ℚ
  RETREAT_TELEGRAPH : ℚ
  HAZARD_TELEGRAPH : ℚ
  SLAM_TELEGRAPH : ℚ
  BLINK_EXECUTE : ℚ
  CHARGE_EXECUTE : ℚ
  LUNGE_EXECUTE : ℚ
  BURST_FIRE_EXECUTE : ℚ
  RETREAT_EXECUTE : ℚ
  HAZARD_EXECUTE : ℚ
  SLAM_EXECUTE : ℚ
  DEFAULT_RECOVERY : ℚ

def ABILITY_TIMING : AbilityTiming :=
  { BLINK_TELEGRAPH := 0.4
    CHARGE_TELEGRAPH := 0.5
    LUNGE_TELEGRAPH := 0.3
    BURST_FIRE_TELEGRAPH := 0.35
    RETREAT_TELEGRAPH := 0.25
    HAZARD_TELEGRAPH := 0.4
    SLAM_TELEGRAPH := 0.5
    BLINK_EXECUTE := 0.2
    CHARGE_EXECUTE := 0.35
    LUNGE_EXECUTE := 0.2
    BURST_FIRE_EXECUTE := 0.25
    RETREAT_EXECUTE := 0.15
    HAZARD_EXECUTE := 0.15
    SLAM_EXECUTE := 0.3
    DEFAULT_RECOVERY := 0.2 }

/-- `ABILITY_TIMING[abilityId.toUpperCase() + '_TELEGRAPH'] || 0.3`
(`EnemyAI.ts` l.1143/1115): the dynamic string lookup resolved per ability id,
with the source's fallback. -/
def telegraphTimeOf (abilityId : String) : ℚ :=
  match abilityId with
  | "blink" => ABILITY_TIMING.BLINK_TELEGRAPH
  | "charge" => ABILITY_TIMING.CHARGE_TELEGRAPH
  | "lunge" => ABILITY_TIMING.LUNGE_TELEGRAPH
  | "burst_fire" => ABILITY_TIMING.BURST_FIRE_TELEGRAPH
  | "retreat" => ABILITY_TIMING.RETREAT_TELEGRAPH
  | "hazard" => ABILITY_TIMING.HAZARD_TELEGRAPH
  | "slam" => ABILITY_TIMING.SLAM_TELEGRAPH
  | _ => 0.3

/-- `ABILITY_TIMING[ability.id.toUpperCase() + '_EXECUTE'] || 0.2`
(`EnemyAI.ts` l.1160). -/
def executeTimeOf (abilityId : String) : ℚ :=
  match abilityId with
  | "blink" => ABILITY_TIMING.BLINK_EXECUTE
  | "charge" => ABILITY_TIMING.CHARGE_EXECUTE
  | "lunge" => ABILITY_TIMING.LUNGE_EXECUTE
  | "burst_fire" => ABILITY_TIMING.BURST_FIRE_EXECUTE
  | "retreat" => ABILITY_TIMING.RETREAT_EXECUTE
  | "hazard" => ABILITY_TIMING.HAZARD_EXECUTE
  | "slam" => ABILITY_TIMING.SLAM_EXECUTE
  | _ => 0.2

/-- `EnemyAI.ts` l.1024-1025: module-level id counter, threaded through
`RunState.nextEntityId`. -/
def genId (s : RunState) : String × RunState :=
  ("e_" ++ toString s.nextEntityId, { s with nextEntityId := s.nextEntityId + 1 })

/-- The `state.entities.forEach` of `findNearestPlayerAlly` (`CombatSystem.ts`
l.891-904); `d < minDist` on square roots is compared on squares. -/
def nearestAllyLoop (pos : Vec2) : List ℕ → RunState → EntRef → ℚ → EntRef
  | [], _, best, _ => best
  | i :: rest, s, best, bestD2 =>
    let e := refGet s (.idx i)
    if e.type == "summon" ∧ e.alive ∧ e.faction == "player" ∧ dist2 pos e.pos < bestD2 then
      nearestAllyLoop pos rest s (.idx i) (dist2 pos e.pos)
    else nearestAllyLoop pos rest s best bestD2

/-- `CombatSystem.ts` l.891 `findNearestPlayerAlly`: starts from the player,
so a slot is always found. -/
def findNearestPlayerAlly (s : RunState) (pos : Vec2) : EntRef :=
  nearestAllyLoop pos (List.range s.entities.length) s .player (dist2 pos s.player.pos)

/-- `EnemyAI.ts` l.1137 `startAbility`. -/
def startAbility (s : RunState) (enemy : EntRef) (abilityId : String)
    (targetPos : Option Vec2 := none) (startPos : Option Vec2 := none) : RunState :=
  let telegraphTime := telegraphTimeOf abilityId
  setRef s enemy (fun e =>
    { e with
      activeAbility := some
        { id := abilityId
          phase := "telegraph"
          timer := telegraphTime
          targetPos := targetPos
          startPos := some (startPos.getD e.pos)  -- `startPos || { ...enemy.pos }`
          windupProgress := some 0 }
      animState := "attack" })  -- wind-up pose

/-- `EnemyAI.ts` l.1193 `executeBlink`. -/
def executeBlink (s : RunState) (enemy : EntRef) : RunState :=
  let e := refGet s enemy
  match e.activeAbility.bind (fun ab => ab.targetPos) with
  | none => s
  | some tp =>
    let s := setRef s enemy (fun e => clampToArena { e with pos := tp })
    -- Backstab damage to target
    let e := refGet s enemy
    let target := findNearestPlayerAlly s e.pos
    let t := refGet s target
    if distLt e.pos t.pos 50 then
      (processDamageTop
        { attackerId := e.id, targetId := t.id,
          baseDamage := jround (e.defDamage * 1.5), damageType := "physical",
          tags := ["Spirit", "Melee"], isProjectile := false } s).2
    else s

/-- The charge-completion `[...state.entities, state.player].forEach`
(`EnemyAI.ts` l.1228-1239). -/
def chargeHitLoop (enemyId : String) (enemyPos : Vec2) :
    List EntRef → RunState → RunState
  | [], s => s
  | r :: rest, s =>
    let e := refGet s r
    let s :=
      if e.alive ∧ e.faction == "player" ∧ distLt e.pos enemyPos 36 then
        (processDamageTop
          { attackerId := enemyId, targetId := e.id, baseDamage := 10,
            damageType := "physical", tags := ["Physical", "AOE"],
            isProjectile := false } s).2
      else s
    chargeHitLoop enemyId enemyPos rest s

/-- `EnemyAI.ts` l.1214 `executeCharge`. -/
def executeCharge (s : RunState) (enemy : EntRef) : RunState :=
  let e := refGet s enemy
  match e.activeAbility with
  | none => s
  | some ab =>
    match ab.targetPos, ab.startPos with
    | some endPos, some startPos =>
      -- Lerp to target position during execute phase
      let progress := 1 - ab.timer / ABILITY_TIMING.CHARGE_EXECUTE
      let s := setRef s enemy (fun e => clampToArena
        { e with pos := ⟨startPos.x + (endPos.x - startPos.x) * progress,
                         startPos.y + (endPos.y - startPos.y) * progress⟩ })
      -- Damage on completion
      if progress ≥ 0.95 then
        let enemyEnt := refGet s enemy
        chargeHitLoop enemyEnt.id enemyEnt.pos
          ((List.range s.entities.length).map .idx ++ [.player]) s
      else s
    | _, _ => s

/-- `EnemyAI.ts` l.1243 `executeLunge`. -/
def executeLunge (s : RunState) (enemy : EntRef) : RunState :=
  let e := refGet s enemy
  match e.activeAbility with
  | none => s
  | some ab =>
    match ab.targetPos, ab.startPos with
    | some endPos, some startPos =>
      let progress := 1 - ab.timer / ABILITY_TIMING.LUNGE_EXECUTE
      let s := setRef s enemy (fun e => clampToArena
        { e with pos := ⟨startPos.x + (endPos.x - startPos.x) * progress,
                         startPos.y + (endPos.y - startPos.y) * progress⟩ })
      if progress ≥ 0.9 then
        let enemyEnt := refGet s enemy
        let target := findNearestPlayerAlly s enemyEnt.pos
        let t := refGet s target
        if distLt enemyEnt.pos t.pos 30 then
          (processDamageTop
            { attackerId := enemyEnt.id, targetId := t.id,
              baseDamage := jround (enemyEnt.defDamage * 1.3), damageType := "physical",
              tags := ["Physical", "Melee"], isProjectile := false } s).2
        else s
      else s
    | _, _ => s

/-- `EnemyAI.ts` l.1269 `executeBurstFire` (three projectiles in a spread;
velocities come from the supplied trigonometric functions). -/
def executeBurstFire (trig : Trig) (s : RunState) (enemy : EntRef) : RunState :=
  let e := refGet s enemy
  let target := findNearestPlayerAlly s e.pos
  let t := refGet s target
  let baseDir :=
    -- `dirTo(enemy.pos, target.pos)`: normalisation keeps the angle, which is
    -- all `atan2` consumes
    (⟨t.pos.x - e.pos.x, t.pos.y - e.pos.y⟩ : Vec2)
  let baseAngle := trig.atan2 baseDir.y baseDir.x
  let spawnOne (k : ℚ) (s : RunState) : RunState :=
    let angle := baseAngle + k * 0.15
    let g := genId s
    let pid := g.1
    let s := g.2
    { s with entities := s.entities ++
      [{ id := pid, type := "projectile",
         pos := e.pos, vel := ⟨trig.cos angle * 190, trig.sin angle * 190⟩,
         hp := 1, maxHp := 1, radius := 4, speed := 190, faction := "enemy",
         alive := true, animState := "idle", rotation := angle,
         ownerId := e.id, damage := jround (e.defDamage * 0.6),
         piercing := false, lifetime := 2, maxLifetime := 2, hitEntities := [] }] }
  spawnOne (-1) (spawnOne 0 (spawnOne 1 s))
  -- the TS loop runs i = -1, 0, 1; entity-array order is append-only, and the
  -- spawn order is i = -1 first (kept: outermost application last)

/-- `EnemyAI.ts` l.1303 `executeRetreat`. -/
def executeRetreat (s : RunState) (enemy : EntRef) : RunState :=
  let e := refGet s enemy
  match e.activeAbility with
  | none => s
  | some ab =>
    match ab.targetPos, ab.startPos with
    | some endPos, some startPos =>
      let progress := 1 - ab.timer / ABILITY_TIMING.RETREAT_EXECUTE
      let s := setRef s enemy (fun e => clampToArena
        { e with pos := ⟨startPos.x + (endPos.x - startPos.x) * progress,
                         startPos.y + (endPos.y - startPos.y) * progress⟩ })
      -- Drop mine at start position on completion
      if progress ≥ 0.95 then
        let g := genId s
        let mid := g.1
        let s := g.2
        { s with entities := s.entities ++
          [{ id := mid, type := "hazard", pos := startPos, vel := ⟨0, 0⟩,
             hp := 1, maxHp := 1, radius := 28, speed := 0, faction := "enemy",
             alive := true, animState := "idle", rotation := 0,
             ownerId := e.id, damage := 5, tickRate := 0.5, tickTimer := 0.5,
             duration := 3, maxDuration := 3 }] }
      else s
    | _, _ => s

/-- `EnemyAI.ts` l.1341 `executeHazardSpawn`. -/
def executeHazardSpawn (s : RunState) (enemy : EntRef) : RunState :=
  let e := refGet s enemy
  match e.activeAbility.bind (fun ab => ab.targetPos) with
  | none => s
  | some tp =>
    let g := genId s
    let hid := g.1
    let s := g.2
    { s with entities := s.entities ++
      [{ id := hid, type := "hazard", pos := tp, vel := ⟨0, 0⟩,
         hp := 1, maxHp := 1, radius := 40, speed := 0, faction := "enemy",
         alive := true, animState := "idle", rotation := 0,
         ownerId := e.id, damage := 4, tickRate := 0.5, tickTimer := 0.5,
         duration := 5, maxDuration := 5 }] }

/-- The ground-slam `[...state.entities, state.player].forEach`
(`EnemyAI.ts` l.1370-1381). -/
def slamHitLoop (enemyId : String) (enemyPos : Vec2) :
    List EntRef → RunState → RunState
  | [], s => s
  | r :: rest, s =>
    let e := refGet s r
    let s :=
      if e.alive ∧ e.faction == "player" ∧ distLt e.pos enemyPos 48 then
        (processDamageTop
          { attackerId := enemyId, targetId := e.id, baseDamage := 12,
            damageType := "physical", tags := ["Physical", "AOE"],
            isProjectile := false } s).2
      else s
    slamHitLoop enemyId enemyPos rest s

/-- `EnemyAI.ts` l.1368 `executeGroundSlam` (`slamRadius = 48`). -/
def executeGroundSlam (s : RunState) (enemy : EntRef) : RunState :=
  let e := refGet s enemy
  slamHitLoop e.id e.pos ((List.range s.entities.length).map .idx ++ [.player]) s

/-- `EnemyAI.ts` l.1156 `executeAbility`. -/
def executeAbility (trig : Trig) (s : RunState) (enemy : EntRef) : RunState :=
  let e := refGet s enemy
  match e.activeAbility with
  | none => s
  | some ab =>
    let executeTime := executeTimeOf ab.id
    let s := setRef s enemy (fun e =>
      { e with activeAbility := some { ab with phase := "execute", timer := executeTime } })
    -- Execute the actual ability effect
    match ab.id with
    | "blink" => executeBlink s enemy
    | "charge" => executeCharge s enemy
    | "lunge" => executeLunge s enemy
    | "burst_fire" => executeBurstFire trig s enemy
    | "retreat" => executeRetreat s enemy
    | "hazard" => executeHazardSpawn s enemy
    | "slam" => executeGroundSlam s enemy
    | _ => s

/-- `EnemyAI.ts` l.1107 `updateActiveAbility`. -/
def updateActiveAbility (trig : Trig) (s : RunState) (enemy : EntRef) (dt : ℚ) : RunState :=
  let e := refGet s enemy
  match e.activeAbility with
  | none => s
  | some ab0 =>
    let s := setRef s enemy (fun e =>
      { e with activeAbility := some { ab0 with timer := ab0.timer - dt } })
    -- Update windup progress for animations
    let ab := { ab0 with timer := ab0.timer - dt }
    let s :=
      if ab.phase == "telegraph" ∧ ab.windupProgress.isSome then
        let totalTime := telegraphTimeOf ab.id
        setRef s enemy (fun e =>
          { e with activeAbility := some ({ ab with windupProgress := some (1 - ab.timer / totalTime) }) })
      else s
    -- Phase transitions
    let ab := (refGet s enemy).activeAbility.getD ab
    if ab.timer ≤ 0 then
      match ab.phase with
      | "telegraph" => executeAbility trig s enemy
      | "execute" =>
        setRef s enemy (fun e =>
          { e with
            activeAbility := some
              { ab with phase := "recovery", timer := ABILITY_TIMING.DEFAULT_RECOVERY }
            animState := "idle" })
      | "recovery" => setRef s enemy (fun e => { e with activeAbility := none })
      | _ => s
    else s

/-- Iterated per-frame driver for one enemy's active ability (the
`updateEnemyAI` branch at `EnemyAI.ts` l.1057-1060, restricted to the
ability-owning enemy). -/
def stepAbilityN (trig : Trig) (enemy : EntRef) (dt : ℚ) : ℕ → RunState → RunState
  | 0, s => s
  | n + 1, s => stepAbilityN trig enemy dt n (updateActiveAbility trig s enemy dt)

/-! ## Concrete fixtures used by claim theorems and witnesses -/

/-- A plain player entity (armor 0, as initialised in `engine/RunState.ts`). -/
def basePlayer : Entity :=
  { id := "player", type := "player", faction := "player", hp := 100, maxHp := 100,
    armor := some 0, alive := true }

/-- A plain enemy entity. -/
def baseEnemy : Entity :=
  { id := "e1", type := "enemy", faction := "enemy", hp := 50, maxHp := 50, alive := true }

/-- Scenario B of the spec: player target with armor 20. -/
def scBState : RunState :=
  { player := { basePlayer with armor := some 20 }, entities := [baseEnemy] }

/-- Scenario B hit: enemy deals 10 physical to the player. -/
def scBEvent : DamageEvent :=
  { attackerId := "e1", targetId := "player", baseDamage := 10, damageType := "physical" }

/-- State whose only enemy `e1` is present but dead. -/
def deadE1State : RunState :=
  { player := basePlayer, entities := [{ baseEnemy with alive := false }] }

/-- A hit aimed at the dead enemy `e1`. -/
def deadTargetEvent : DamageEvent :=
  { attackerId := "player", targetId := "e1", baseDamage := 10, damageType := "physical" }

/-- Player with the Guardian Bark Amulet and an active Fungal Link window,
attacked by their own summon `s1`: both a defender-side (bark shield) and an
attacker-side (fungal heal) reactive trigger can fire in one call. -/
def orderState : RunState :=
  { player := { basePlayer with hp := 35, items := ["guardian_bark_amulet"], fungalLinkMs := 1000 }
    entities := [{ id := "s1", type := "summon", faction := "player", hp := 10, maxHp := 10, alive := true }] }

def orderEvent : DamageEvent :=
  { attackerId := "s1", targetId := "player", baseDamage := 10, damageType := "physical" }

/-- Player with an active Thorn Mantle buff and nine live enemies inside its
(default 40) radius. -/
def thornState : RunState :=
  { player := { basePlayer with thornMantleBuff := 6 }
    entities := (List.range 9).map (fun n =>
      { id := "en" ++ toString n, type := "enemy", faction := "enemy",
        hp := 100, maxHp := 100, alive := true }) }

def thornEvent : DamageEvent :=
  { attackerId := "en0", targetId := "player", baseDamage := 5, damageType := "physical" }

/-- Player with the Feral Momentum passive; enemy `e1` at 1 hp with 5 poison
stacks, about to die to a poison tick. -/
def poisonDeathState : RunState :=
  { player := { basePlayer with passives := [("feral_momentum", true)] }
    entities := [{ baseEnemy with hp := 1, poisonStacks := 5 }] }

/-- Same player, healthy enemy without poison (for the pipeline-kill
contrast). -/
def pipelineKillState : RunState :=
  { player := { basePlayer with passives := [("feral_momentum", true)] }
    entities := [{ baseEnemy with hp := 1 }] }

def pipelineKillEvent : DamageEvent :=
  { attackerId := "player", targetId := "e1", baseDamage := 10, damageType := "physical" }

/-- Trivial trigonometry instance for scenarios that never evaluate it. -/
def trig0 : Trig := { cos := fun _ => 0, sin := fun _ => 0, atan2 := fun _ _ => 0 }

/-- Enemy at the origin, player at (60,0): the charge/blink test arena. -/
def abilityBaseState : RunState :=
  { player := { basePlayer with pos := ⟨60, 0⟩ }
    entities := [{ baseEnemy with pos := ⟨0, 0⟩, defDamage := 10 }] }

/-- `startAbility(enemy, 'charge', {x:60,y:0})` just issued. -/
def chargeState : RunState := startAbility abilityBaseState (.idx 0) "charge" (some ⟨60, 0⟩)

/-- `startAbility(enemy, 'blink', {x:60,y:0})` just issued (0.4 s telegraph). -/
def blinkState : RunState := startAbility abilityBaseState (.idx 0) "blink" (some ⟨60, 0⟩)

/-! ## Relations used by the invariant proofs -/

/-- Monotone evolution of a trigger context: depth and every per-kind count
only ever grow (`recordTrigger` is the sole writer and only increments). -/
def CtxLe (c c' : TriggerContext) : Prop :=
  c.depth ≤ c'.depth ∧ ∀ k, cntOf c k ≤ cntOf c' k

/-- Cap preservation for a trigger context evolution. -/
def CtxCaps (c c' : TriggerContext) : Prop :=
  (c.depth ≤ HARD_CAPS.maxTriggerChainDepth →
    c'.depth ≤ HARD_CAPS.maxTriggerChainDepth) ∧
  ∀ k, cntOf c k ≤ HARD_CAPS.maxSameTriggerRepeats →
    cntOf c' k ≤ HARD_CAPS.maxSameTriggerRepeats

/-- Frame facts for the non-recursive trigger handlers: they never change the
number of entity slots, the ghost pipeline-entry counter, the ghost fuel
flag, or the ghost handler-invocation lists. -/
def FrameEq (s s' : RunState) : Prop :=
  s'.entities.length = s.entities.length ∧
  s'.pipelineCalls = s.pipelineCalls ∧
  s'.fuelOut = s.fuelOut ∧
  s'.onKillFired = s.onKillFired ∧
  s'.onDeathFired = s.onDeathFired

/-- The facts proved about one `processDamage` call by induction on fuel,
stated on the output triple `out`: context monotonicity and caps,
entity-count invariance, the pipeline-entry count bound (each OnDamageTaken
firing opens at most `entities.length` nested calls), and that the fuel
cutoff is never reached when `5 ≤ fuel + depth`. -/
def PostB (fuel : ℕ) (s : RunState) (ctx : TriggerContext)
    (out : DamageResult × RunState × TriggerContext) : Prop :=
  CtxLe ctx out.2.2 ∧
  CtxCaps ctx out.2.2 ∧
  out.2.1.entities.length = s.entities.length ∧
  out.2.1.pipelineCalls + s.entities.length * cntOf ctx "OnDamageTaken"
    ≤ s.pipelineCalls + 1 + s.entities.length * cntOf out.2.2 "OnDamageTaken" ∧
  (ctx.depth ≤ HARD_CAPS.maxTriggerChainDepth → 5 ≤ fuel + ctx.depth →
    out.2.1.fuelOut = s.fuelOut)

/-- `PostB` for every call of a recursion candidate (instantiated with
`processDamage fuel` by the fuel induction). -/
def RecOk (rec : Recurse) (fuel : ℕ) : Prop :=
  ∀ event s ctx, PostB fuel s ctx (rec event s ctx)

/-- `PostB` of an actual `processDamage` call. -/
def PipeBundle (fuel : ℕ) (event : DamageEvent) (s : RunState)
    (ctx : TriggerContext) : Prop :=
  PostB fuel s ctx (processDamage fuel event s ctx)

/-! ### Per-entity-slot relations for the health/alive invariant (C4) -/

/-- Weak slot evolution, satisfied by every step of the combat core, even
those that leave an entity transiently below 0 hp: max health and the Thorn
Mantle damage stat are untouched, an entity is never revived, a
non-negative damage scalar stays non-negative, and health never exceeds the
(unchanged) max health when it started at or below it. -/
def SlotW (e e' : Entity) : Prop :=
  e'.maxHp = e.maxHp ∧
  e'.thornMantleDamage = e.thornMantleDamage ∧
  (e'.alive = true → e.alive = true) ∧
  (0 ≤ e.damageScalar → 0 ≤ e'.damageScalar) ∧
  (e.hp ≤ e.maxHp → 0 ≤ e.maxHp → e'.hp ≤ e.maxHp)

/-- Strong slot evolution: additionally, a slot inside the health box
`0 ≤ hp ≤ maxHp` stays at non-negative health, and "alive implies positive
health" is preserved.  Every complete combat-core operation satisfies this
for every slot; inside the damage pipeline the current target temporarily
only satisfies `SlotW` until the lethal check restores it. -/
def SlotS (e e' : Entity) : Prop :=
  SlotW e e' ∧
  (0 ≤ e.hp → e.hp ≤ e.maxHp →
    0 ≤ e'.hp ∧ ((e.alive = true → 0 < e.hp) → (e'.alive = true → 0 < e'.hp)))

/-- `SlotW` at every slot (and no slot created or destroyed). -/
def AllW (s s' : RunState) : Prop :=
  s'.entities.length = s.entities.length ∧
  ∀ r : EntRef, SlotW (refGet s r) (refGet s' r)

/-- `SlotS` at every slot. -/
def AllS (s s' : RunState) : Prop :=
  s'.entities.length = s.entities.length ∧
  ∀ r : EntRef, SlotS (refGet s r) (refGet s' r)

/-- `SlotW` at every slot and `SlotS` at every slot except (possibly) `t`. -/
def AllSx (t : EntRef) (s s' : RunState) : Prop :=
  AllW s s' ∧ ∀ r : EntRef, r ≠ t → SlotS (refGet s r) (refGet s' r)

/-- The claimed per-entity invariant: health in `[0, maxHealth]`, and never
non-positive health with the alive flag still set. -/
def EntityBox (e : Entity) : Prop :=
  0 ≤ e.hp ∧ e.hp ≤ e.maxHp ∧ (e.alive = true → 0 < e.hp)

/-- The invariant for the whole run state (player and every array entity). -/
def StBox (s : RunState) : Prop :=
  EntityBox s.player ∧ ∀ e ∈ s.entities, EntityBox e

/-- Auxiliary sanity of the damage stats fed back into nested thorn events:
non-negative damage scalars and Thorn Mantle damage everywhere. -/
def DsTmdOk (s : RunState) : Prop :=
  (0 ≤ s.player.damageScalar ∧ 0 ≤ s.player.thornMantleDamage) ∧
  ∀ e ∈ s.entities, 0 ≤ e.damageScalar ∧ 0 ≤ e.thornMantleDamage

/-- `DsTmdOk` read through entity references (holds for the out-of-range
default entity as well). -/
def DsTmdR (s : RunState) : Prop :=
  ∀ r : EntRef, 0 ≤ (refGet s r).damageScalar ∧ 0 ≤ (refGet s r).thornMantleDamage

/-! ## Small helper lemmas -/

theorem resolveId_ghostCalls (s : RunState) (id : String) (n : ℕ) :
    resolveId { s with pipelineCalls := n } id = resolveId s id := rfl

theorem findEntity_none_iff (s : RunState) (id : String) :
    findEntity s id = none ↔ resolveId s id = none := by
  unfold findEntity
  cases resolveId s id <;> simp

theorem findEntity_some_iff (s : RunState) (id : String) (t : Entity) :
    findEntity s id = some t ↔ ∃ r, resolveId s id = some r ∧ refGet s r = t := by
  unfold findEntity
  cases resolveId s id <;> simp

theorem refGet_ghostCalls (s : RunState) (r : EntRef) (n : ℕ) :
    refGet { s with pipelineCalls := n } r = refGet s r := by
  cases r <;> rfl

/-- Shared no-op lemma: a missing target, a dead target, or a missing attacker
makes the pipeline return the zero result and leave everything but the ghost
entry counter untouched (`CombatSystem.ts` l.84-86). -/
theorem processDamage_noop (fuel : ℕ) (event : DamageEvent) (s : RunState)
    (ctx : TriggerContext)
    (h : resolveId s event.targetId = none ∨
         (∃ tr, resolveId s event.targetId = some tr ∧ (refGet s tr).alive = false) ∨
         resolveId s event.attackerId = none) :
    processDamage (fuel + 1) event s ctx =
      (zeroResult, { s with pipelineCalls := s.pipelineCalls + 1 }, ctx) := by
  rcases h with ht | ⟨tr, htr, hdead⟩ | ha
  · simp only [processDamage, resolveId_ghostCalls, ht]
  · cases ha : resolveId s event.attackerId with
    | none => simp only [processDamage, resolveId_ghostCalls, htr, ha]
    | some ar =>
      simp only [processDamage, resolveId_ghostCalls, refGet_ghostCalls, htr, ha, hdead]
      simp
  · cases ht : resolveId s event.targetId with
    | none => simp only [processDamage, resolveId_ghostCalls, ht]
    | some tr => simp only [processDamage, resolveId_ghostCalls, ht, ha]

/-! ## Claim theorems -/

/-- C10: on every code path of the damage pipeline — for any fuel, event,
state and trigger context — the `blocked` field of the returned
`DamageResult` is `false`; no branch of `processDamage` ever produces
`blocked = true`. -/
theorem processDamage_blocked_always_false (fuel : ℕ) (event : DamageEvent)
    (s : RunState) (ctx : TriggerContext) :
    (processDamage fuel event s ctx).1.blocked = false := by
  cases fuel with
  | zero => rfl
  | succ n =>
    simp only [processDamage]
    repeat' split
    all_goals rfl

/-- C3: for a physical hit on a target with an armor field, the armor
reduction is `min(armor·0.5, mitigated·0.7)` — never more than 70% of the
pre-mitigation damage — and the post-mitigation damage is
`max(1, mitigated − reduction)`, never below 1.  In particular armor 20
against base damage 10 gives reduction 7 and post-mitigation damage 3, and
the full pipeline on Scenario B (player with armor 20 hit by an enemy for 10
physical) returns final damage 3. -/
theorem armor_reduction_and_floor :
    (∀ a m : ℚ,
      armorReduction a m ≤ m * 0.7 ∧
      1 ≤ armorMitigate m a ∧
      armorMitigate m a = max 1 (m - min (a * 0.5) (m * 0.7))) ∧
    armorReduction 20 10 = 7 ∧ armorMitigate 10 20 = 3 ∧
    (processDamageTop scBEvent scBState).1.finalDamage = 3 := by
  exact ⟨fun a m => ⟨min_le_right _ _, le_max_left _ _, rfl⟩,
    by with_unfolding_all rfl, by with_unfolding_all rfl, by with_unfolding_all rfl⟩

/-- C5 (code bug): `applyBleed`/`applySlow` read `HARD_CAPS.maxBleedStacks` /
`HARD_CAPS.maxSlowStacks`, which do not exist on the `HARD_CAPS` object in
`src/types` (even though `IMPLEMENTATION_NOTES.md` documents them as added
with values 15 and 3), so `Math.min(undefined, current + stacks)` evaluates
to `NaN` for every input — the stack count is never a clamped number.  The
poison stack clamp (`Math.min(HARD_CAPS.maxPoisonStacks, …)`), whose cap
does exist, stays below its cap. -/
theorem applyBleed_applySlow_nan :
    (∀ (e : Entity) (stackAmt : ℚ),
      (applyBleed e stackAmt).bleedStacks = none ∧
      (applySlow e stackAmt).slowStacks = none) ∧
    (applyBleed baseEnemy 1).bleedStacks = none ∧
    (∀ q k : ℚ, min HARD_CAPS.maxPoisonStacks (q + k) ≤ HARD_CAPS.maxPoisonStacks) :=
  ⟨fun _ _ => ⟨rfl, rfl⟩, rfl, fun _ _ => min_le_left _ _⟩

/-- C8 counterexample: a present-but-dead attacker does NOT abort the
pipeline.  In `deadE1State` the attacker `e1` exists and is dead, yet the
hit on the (alive) player goes through: final damage 10 and the player's
health drops from 100 to 90 — not the zero/false no-op result the claim
requires. -/
theorem dead_attacker_not_noop :
    (findEntity deadE1State "e1").isSome = true ∧
    ((findEntity deadE1State "e1").getD {}).alive = false ∧
    (processDamageTop scBEvent deadE1State).1.finalDamage = 10 ∧
    (processDamageTop scBEvent deadE1State).1 ≠ zeroResult ∧
    (processDamageTop scBEvent deadE1State).2.player.hp = 90 := by
  refine ⟨rfl, rfl, by with_unfolding_all rfl, ?_, by with_unfolding_all rfl⟩
  intro h
  have hfd : (processDamageTop scBEvent deadE1State).1.finalDamage = 10 := by
    with_unfolding_all rfl
  rw [h] at hfd
  simp [zeroResult] at hfd

/-- C8 (amended): the pipeline is a no-op — zero/false result, non-ghost
state untouched, context untouched — exactly when the target is missing, the
target is dead, or the attacker is missing.  A dead-but-present attacker does
not abort the pipeline (see the counterexample). -/
theorem processDamage_noop_on_missing_or_dead_target (fuel : ℕ)
    (event : DamageEvent) (s : RunState) (ctx : TriggerContext)
    (h : findEntity s event.targetId = none ∨
         (∃ t, findEntity s event.targetId = some t ∧ t.alive = false) ∨
         findEntity s event.attackerId = none) :
    (processDamage (fuel + 1) event s ctx).1 = zeroResult ∧
    ((processDamage (fuel + 1) event s ctx).2.1).real = s.real ∧
    (processDamage (fuel + 1) event s ctx).2.2 = ctx := by
  have h' : resolveId s event.targetId = none ∨
      (∃ tr, resolveId s event.targetId = some tr ∧ (refGet s tr).alive = false) ∨
      resolveId s event.attackerId = none := by
    rcases h with ht | ⟨t, ht, hdead⟩ | ha
    · exact Or.inl ((findEntity_none_iff s event.targetId).mp ht)
    · obtain ⟨r, hr, hget⟩ := (findEntity_some_iff s event.targetId t).mp ht
      exact Or.inr (Or.inl ⟨r, hr, by rw [hget]; exact hdead⟩)
    · exact Or.inr (Or.inr ((findEntity_none_iff s event.attackerId).mp ha))
  rw [processDamage_noop fuel event s ctx h']
  exact ⟨rfl, rfl, rfl⟩

/-- Witness for the amended C8 theorem at a concrete input: hitting the dead
enemy `e1` is a no-op. -/
theorem processDamage_noop_on_missing_or_dead_target_witness :
    (processDamage 5 deadTargetEvent deadE1State newTriggerContext).1 = zeroResult ∧
    ((processDamage 5 deadTargetEvent deadE1State newTriggerContext).2.1).real =
      deadE1State.real ∧
    (processDamage 5 deadTargetEvent deadE1State newTriggerContext).2.2 =
      newTriggerContext :=
  processDamage_noop_on_missing_or_dead_target 4 deadTargetEvent deadE1State newTriggerContext
    (Or.inr (Or.inl ⟨{ baseEnemy with alive := false }, by rfl, by rfl⟩))

/-- C1 counterexample: the defender-attributed "on damage taken" triggers run
BEFORE the attacker-attributed "on hit" triggers, not after as the claim
orders them.  In `orderState` (player with Guardian Bark Amulet and an active
Fungal Link window, hit by their own summon) the combat log of one pipeline
call reads damage entry, then the bark-shield trigger entry (OnDamageTaken
stage), then the fungal heal entry (OnHit stage); and when the call starts
with only one unit of chain budget left (`depth = 3`), the OnDamageTaken
trigger fires (shield granted) while the OnHit trigger is suppressed (no
heal: health stays at 35 − 10 = 25) — the opposite of the claimed order. -/
theorem onHit_not_processed_before_onDamageTaken :
    ((processDamageTop orderEvent orderState).2.combatLog.map (fun l => (l.type, l.source))) =
      [("damage", "s1"), ("trigger", "item"), ("heal", "fungal_link")] ∧
    (processDamageTop orderEvent orderState).2.player.hp = 27 ∧
    (processDamage 5 orderEvent orderState { depth := 3 }).2.1.player.barkShieldHp = 25 ∧
    (processDamage 5 orderEvent orderState { depth := 3 }).2.1.player.hp = 25 := by
  exact ⟨by with_unfolding_all rfl, by with_unfolding_all rfl,
    by with_unfolding_all rfl, by with_unfolding_all rfl⟩

/-! ## Frame lemmas: primitives -/

@[simp] theorem updIdx_length (l : List Entity) (i : ℕ) (f : Entity → Entity) :
    (updIdx l i f).length = l.length := by
  induction l generalizing i with
  | nil => rfl
  | cons e es ih => cases i with
    | zero => rfl
    | succ n => simp [updIdx, ih]

@[simp] theorem setRef_entities_length (s : RunState) (r : EntRef) (f : Entity → Entity) :
    (setRef s r f).entities.length = s.entities.length := by
  cases r <;> simp [setRef]

@[simp] theorem setRef_pipelineCalls (s : RunState) (r : EntRef) (f : Entity → Entity) :
    (setRef s r f).pipelineCalls = s.pipelineCalls := by cases r <;> rfl

@[simp] theorem setRef_fuelOut (s : RunState) (r : EntRef) (f : Entity → Entity) :
    (setRef s r f).fuelOut = s.fuelOut := by cases r <;> rfl

@[simp] theorem setRef_onKillFired (s : RunState) (r : EntRef) (f : Entity → Entity) :
    (setRef s r f).onKillFired = s.onKillFired := by cases r <;> rfl

@[simp] theorem setRef_onDeathFired (s : RunState) (r : EntRef) (f : Entity → Entity) :
    (setRef s r f).onDeathFired = s.onDeathFired := by cases r <;> rfl

@[simp] theorem addCombatLog_entities (s : RunState) (t src : String)
    (tg : Option String) (v : Option ℚ) :
    (addCombatLog s t src tg v).entities = s.entities := rfl

@[simp] theorem addCombatLog_player (s : RunState) (t src : String)
    (tg : Option String) (v : Option ℚ) :
    (addCombatLog s t src tg v).player = s.player := rfl

@[simp] theorem addCombatLog_pipelineCalls (s : RunState) (t src : String)
    (tg : Option String) (v : Option ℚ) :
    (addCombatLog s t src tg v).pipelineCalls = s.pipelineCalls := rfl

@[simp] theorem addCombatLog_fuelOut (s : RunState) (t src : String)
    (tg : Option String) (v : Option ℚ) :
    (addCombatLog s t src tg v).fuelOut = s.fuelOut := rfl

@[simp] theorem addCombatLog_onKillFired (s : RunState) (t src : String)
    (tg : Option String) (v : Option ℚ) :
    (addCombatLog s t src tg v).onKillFired = s.onKillFired := rfl

@[simp] theorem addCombatLog_onDeathFired (s : RunState) (t src : String)
    (tg : Option String) (v : Option ℚ) :
    (addCombatLog s t src tg v).onDeathFired = s.onDeathFired := rfl

/-! ## Frame lemmas: non-recursive trigger handlers -/

@[simp] theorem processOnDebuffApplied_entities_length (a t : EntRef) (dt : String)
    (s : RunState) (ctx : TriggerContext) :
    (processOnDebuffAppliedTriggers a t dt s ctx).entities.length = s.entities.length := by
  unfold processOnDebuffAppliedTriggers
  try dsimp only
  simp [apply_ite RunState.entities, apply_ite List.length]

@[simp] theorem processOnDebuffApplied_pipelineCalls (a t : EntRef) (dt : String)
    (s : RunState) (ctx : TriggerContext) :
    (processOnDebuffAppliedTriggers a t dt s ctx).pipelineCalls = s.pipelineCalls := by
  unfold processOnDebuffAppliedTriggers
  try dsimp only
  simp [apply_ite RunState.pipelineCalls]

@[simp] theorem processOnDebuffApplied_fuelOut (a t : EntRef) (dt : String)
    (s : RunState) (ctx : TriggerContext) :
    (processOnDebuffAppliedTriggers a t dt s ctx).fuelOut = s.fuelOut := by
  unfold processOnDebuffAppliedTriggers
  try dsimp only
  simp [apply_ite RunState.fuelOut]

@[simp] theorem bleedLoop_entities_length (a : EntRef) (ts : List EntRef) :
    ∀ (s : RunState) (ctx : TriggerContext),
    (bleedLoop a ts s ctx).entities.length = s.entities.length := by
  induction ts with
  | nil => intro s ctx; rfl
  | cons t rest ih =>
    intro s ctx
    unfold bleedLoop
    dsimp only
    simp [ih, apply_ite RunState.entities, apply_ite List.length, apply_ite RunState.pipelineCalls, apply_ite RunState.fuelOut]

@[simp] theorem bleedLoop_pipelineCalls (a : EntRef) (ts : List EntRef) :
    ∀ (s : RunState) (ctx : TriggerContext),
    (bleedLoop a ts s ctx).pipelineCalls = s.pipelineCalls := by
  induction ts with
  | nil => intro s ctx; rfl
  | cons t rest ih =>
    intro s ctx
    unfold bleedLoop
    dsimp only
    simp [ih, apply_ite RunState.entities, apply_ite List.length, apply_ite RunState.pipelineCalls, apply_ite RunState.fuelOut]

@[simp] theorem bleedLoop_fuelOut (a : EntRef) (ts : List EntRef) :
    ∀ (s : RunState) (ctx : TriggerContext),
    (bleedLoop a ts s ctx).fuelOut = s.fuelOut := by
  induction ts with
  | nil => intro s ctx; rfl
  | cons t rest ih =>
    intro s ctx
    unfold bleedLoop
    dsimp only
    simp [ih, apply_ite RunState.entities, apply_ite List.length, apply_ite RunState.pipelineCalls, apply_ite RunState.fuelOut]

@[simp] theorem processOnAreaDamage_entities_length (a : EntRef) (ts : List EntRef)
    (d : ℚ) (s : RunState) (ctx : TriggerContext) :
    (processOnAreaDamageTriggers a ts d s ctx).entities.length = s.entities.length := by
  unfold processOnAreaDamageTriggers
  try dsimp only
  simp [apply_ite RunState.entities, apply_ite List.length]

@[simp] theorem processOnAreaDamage_pipelineCalls (a : EntRef) (ts : List EntRef)
    (d : ℚ) (s : RunState) (ctx : TriggerContext) :
    (processOnAreaDamageTriggers a ts d s ctx).pipelineCalls = s.pipelineCalls := by
  unfold processOnAreaDamageTriggers
  try dsimp only
  simp [apply_ite RunState.pipelineCalls]

@[simp] theorem processOnAreaDamage_fuelOut (a : EntRef) (ts : List EntRef)
    (d : ℚ) (s : RunState) (ctx : TriggerContext) :
    (processOnAreaDamageTriggers a ts d s ctx).fuelOut = s.fuelOut := by
  unfold processOnAreaDamageTriggers
  try dsimp only
  simp [apply_ite RunState.fuelOut]

@[simp] theorem ohFungal_entities_length (aT aF : String) (d : ℚ) (s : RunState) :
    (ohFungal aT aF d s).entities.length = s.entities.length := by
  unfold ohFungal
  try dsimp only
  simp [apply_ite RunState.entities, apply_ite List.length]

@[simp] theorem ohFungal_pipelineCalls (aT aF : String) (d : ℚ) (s : RunState) :
    (ohFungal aT aF d s).pipelineCalls = s.pipelineCalls := by
  unfold ohFungal
  try dsimp only
  simp [apply_ite RunState.pipelineCalls]

@[simp] theorem ohFungal_fuelOut (aT aF : String) (d : ℚ) (s : RunState) :
    (ohFungal aT aF d s).fuelOut = s.fuelOut := by
  unfold ohFungal
  try dsimp only
  simp [apply_ite RunState.fuelOut]

@[simp] theorem ohVenom_entities_length (a : Entity) (ar t : EntRef)
    (s : RunState) (ctx : TriggerContext) :
    (ohVenom a ar t s ctx).entities.length = s.entities.length := by
  unfold ohVenom
  try dsimp only
  simp [apply_ite RunState.entities, apply_ite List.length]

@[simp] theorem ohVenom_pipelineCalls (a : Entity) (ar t : EntRef)
    (s : RunState) (ctx : TriggerContext) :
    (ohVenom a ar t s ctx).pipelineCalls = s.pipelineCalls := by
  unfold ohVenom
  try dsimp only
  simp [apply_ite RunState.pipelineCalls]

@[simp] theorem ohVenom_fuelOut (a : Entity) (ar t : EntRef)
    (s : RunState) (ctx : TriggerContext) :
    (ohVenom a ar t s ctx).fuelOut = s.fuelOut := by
  unfold ohVenom
  try dsimp only
  simp [apply_ite RunState.fuelOut]

@[simp] theorem ohSpore_entities_length (a : Entity) (t : EntRef) (s : RunState) :
    (ohSpore a t s).entities.length = s.entities.length := by
  unfold ohSpore
  try dsimp only
  simp [apply_ite RunState.entities, apply_ite List.length]

@[simp] theorem ohSpore_pipelineCalls (a : Entity) (t : EntRef) (s : RunState) :
    (ohSpore a t s).pipelineCalls = s.pipelineCalls := by
  unfold ohSpore
  try dsimp only
  simp [apply_ite RunState.pipelineCalls]

@[simp] theorem ohSpore_fuelOut (a : Entity) (t : EntRef) (s : RunState) :
    (ohSpore a t s).fuelOut = s.fuelOut := by
  unfold ohSpore
  try dsimp only
  simp [apply_ite RunState.fuelOut]

@[simp] theorem ohBrittleFury_entities_length (a : Entity) (ar t : EntRef)
    (s : RunState) (ctx : TriggerContext) :
    (ohBrittleFury a ar t s ctx).entities.length = s.entities.length := by
  unfold ohBrittleFury
  try dsimp only
  simp [apply_ite RunState.entities, apply_ite List.length]

@[simp] theorem ohBrittleFury_pipelineCalls (a : Entity) (ar t : EntRef)
    (s : RunState) (ctx : TriggerContext) :
    (ohBrittleFury a ar t s ctx).pipelineCalls = s.pipelineCalls := by
  unfold ohBrittleFury
  try dsimp only
  simp [apply_ite RunState.pipelineCalls]

@[simp] theorem ohBrittleFury_fuelOut (a : Entity) (ar t : EntRef)
    (s : RunState) (ctx : TriggerContext) :
    (ohBrittleFury a ar t s ctx).fuelOut = s.fuelOut := by
  unfold ohBrittleFury
  try dsimp only
  simp [apply_ite RunState.fuelOut]

@[simp] theorem processOnHitTriggers_entities_length (a t : EntRef) (d : ℚ)
    (s : RunState) (ctx : TriggerContext) :
    (processOnHitTriggers a t d s ctx).entities.length = s.entities.length := by
  unfold processOnHitTriggers
  try dsimp only
  simp [apply_ite RunState.entities, apply_ite List.length]

@[simp] theorem processOnHitTriggers_pipelineCalls (a t : EntRef) (d : ℚ)
    (s : RunState) (ctx : TriggerContext) :
    (processOnHitTriggers a t d s ctx).pipelineCalls = s.pipelineCalls := by
  unfold processOnHitTriggers
  try dsimp only
  simp [apply_ite RunState.pipelineCalls]

@[simp] theorem processOnHitTriggers_fuelOut (a t : EntRef) (d : ℚ)
    (s : RunState) (ctx : TriggerContext) :
    (processOnHitTriggers a t d s ctx).fuelOut = s.fuelOut := by
  unfold processOnHitTriggers
  try dsimp only
  simp [apply_ite RunState.fuelOut]

@[simp] theorem spreadLoop_entities_length (sp : ℚ) (is : List ℕ) :
    ∀ s : RunState, (spreadLoop sp is s).entities.length = s.entities.length := by
  induction is with
  | nil => intro s; rfl
  | cons i rest ih =>
    intro s
    unfold spreadLoop
    simp [ih]

@[simp] theorem spreadLoop_pipelineCalls (sp : ℚ) (is : List ℕ) :
    ∀ s : RunState, (spreadLoop sp is s).pipelineCalls = s.pipelineCalls := by
  induction is with
  | nil => intro s; rfl
  | cons i rest ih =>
    intro s
    unfold spreadLoop
    simp [ih]

@[simp] theorem spreadLoop_fuelOut (sp : ℚ) (is : List ℕ) :
    ∀ s : RunState, (spreadLoop sp is s).fuelOut = s.fuelOut := by
  induction is with
  | nil => intro s; rfl
  | cons i rest ih =>
    intro s
    unfold spreadLoop
    simp [ih]

@[simp] theorem processOnKillTriggers_entities_length (a t : EntRef)
    (s : RunState) (ctx : TriggerContext) :
    (processOnKillTriggers a t s ctx).entities.length = s.entities.length := by
  unfold processOnKillTriggers
  try dsimp only
  simp [apply_ite RunState.entities, apply_ite List.length]

@[simp] theorem processOnKillTriggers_pipelineCalls (a t : EntRef)
    (s : RunState) (ctx : TriggerContext) :
    (processOnKillTriggers a t s ctx).pipelineCalls = s.pipelineCalls := by
  unfold processOnKillTriggers
  try dsimp only
  simp [apply_ite RunState.pipelineCalls]

@[simp] theorem processOnKillTriggers_fuelOut (a t : EntRef)
    (s : RunState) (ctx : TriggerContext) :
    (processOnKillTriggers a t s ctx).fuelOut = s.fuelOut := by
  unfold processOnKillTriggers
  try dsimp only
  simp [apply_ite RunState.fuelOut]

@[simp] theorem blossomLoop_entities_length (is : List ℕ) :
    ∀ s : RunState, (blossomLoop is s).entities.length = s.entities.length := by
  induction is with
  | nil => intro s; rfl
  | cons i rest ih =>
    intro s
    unfold blossomLoop
    dsimp only
    simp [ih, apply_ite RunState.entities, apply_ite List.length, apply_ite RunState.pipelineCalls, apply_ite RunState.fuelOut]

@[simp] theorem blossomLoop_pipelineCalls (is : List ℕ) :
    ∀ s : RunState, (blossomLoop is s).pipelineCalls = s.pipelineCalls := by
  induction is with
  | nil => intro s; rfl
  | cons i rest ih =>
    intro s
    unfold blossomLoop
    dsimp only
    simp [ih, apply_ite RunState.entities, apply_ite List.length, apply_ite RunState.pipelineCalls, apply_ite RunState.fuelOut]

@[simp] theorem blossomLoop_fuelOut (is : List ℕ) :
    ∀ s : RunState, (blossomLoop is s).fuelOut = s.fuelOut := by
  induction is with
  | nil => intro s; rfl
  | cons i rest ih =>
    intro s
    unfold blossomLoop
    dsimp only
    simp [ih, apply_ite RunState.entities, apply_ite List.length, apply_ite RunState.pipelineCalls, apply_ite RunState.fuelOut]

@[simp] theorem processOnDeathTriggers_entities_length (t a : EntRef)
    (s : RunState) (ctx : TriggerContext) :
    (processOnDeathTriggers t a s ctx).entities.length = s.entities.length := by
  unfold processOnDeathTriggers
  try dsimp only
  simp [apply_ite RunState.entities, apply_ite List.length]

@[simp] theorem processOnDeathTriggers_pipelineCalls (t a : EntRef)
    (s : RunState) (ctx : TriggerContext) :
    (processOnDeathTriggers t a s ctx).pipelineCalls = s.pipelineCalls := by
  unfold processOnDeathTriggers
  try dsimp only
  simp [apply_ite RunState.pipelineCalls]

@[simp] theorem processOnDeathTriggers_fuelOut (t a : EntRef)
    (s : RunState) (ctx : TriggerContext) :
    (processOnDeathTriggers t a s ctx).fuelOut = s.fuelOut := by
  unfold processOnDeathTriggers
  try dsimp only
  simp [apply_ite RunState.fuelOut]

/-! ## Trigger-context lemmas -/

theorem find?_assocSet_self (l : List (String × ℕ)) (k : String) (v : ℕ) :
    (assocSet l k v).find? (fun p => p.1 == k) = some (k, v) := by
  induction l with
  | nil => simp [assocSet]
  | cons p ps ih =>
    unfold assocSet
    split
    · next h => simp
    · next h => simpa [List.find?, h] using ih

theorem find?_assocSet_other (l : List (String × ℕ)) (k : String) (v : ℕ)
    (k' : String) (h : ¬ k' = k) :
    (assocSet l k v).find? (fun p => p.1 == k') = l.find? (fun p => p.1 == k') := by
  induction l with
  | nil =>
    have : (k == k') = false := by simp; exact fun hk => h hk.symm
    simp [assocSet, List.find?, this]
  | cons p ps ih =>
    unfold assocSet
    split
    · next hpk =>
      have hpk' : (p.1 == k) = true := hpk
      have hkk' : (k == k') = false := by simp; exact fun hk => h hk.symm
      have hpk2 : (p.1 == k') = false := by
        simp at hpk' ⊢
        rw [hpk']
        exact fun hk => h hk.symm
      simp [List.find?, hkk', hpk2]
    · next hpk => simp [List.find?, ih]
      -- when `p.1 == k'` is true both sides pick `p`; otherwise recurse

theorem cntOf_recordTrigger_self (ctx : TriggerContext) (k : String) :
    cntOf (recordTrigger ctx k) k = cntOf ctx k + 1 := by
  unfold recordTrigger
  unfold cntOf
  simp [find?_assocSet_self]

theorem cntOf_recordTrigger_other (ctx : TriggerContext) (k k' : String)
    (h : ¬ k' = k) :
    cntOf (recordTrigger ctx k) k' = cntOf ctx k' := by
  unfold recordTrigger
  unfold cntOf
  dsimp only
  rw [find?_assocSet_other _ _ _ _ h]

theorem recordTrigger_depth (ctx : TriggerContext) (k : String) :
    (recordTrigger ctx k).depth = ctx.depth + 1 := rfl

theorem canTrigger_false_of_cap (ctx : TriggerContext) (k : String)
    (h : HARD_CAPS.maxTriggerChainDepth ≤ ctx.depth) :
    canTrigger ctx k = false := by
  unfold canTrigger
  rw [if_pos h]

theorem canTrigger_true_iff (ctx : TriggerContext) (k : String) :
    canTrigger ctx k = true ↔
      ctx.depth < HARD_CAPS.maxTriggerChainDepth ∧
      cntOf ctx k < HARD_CAPS.maxSameTriggerRepeats := by
  unfold canTrigger
  split
  · next h => simp; omega
  · split
    · next h h' => simp; omega
    · next h h' => simp; omega

/-! ## The trigger context is untouched once the chain-depth cap is reached -/

theorem reactiveStage_at_cap (rec : Recurse) (t a : EntRef) (fd : ℚ)
    (s : RunState) (ctx : TriggerContext)
    (h : HARD_CAPS.maxTriggerChainDepth ≤ ctx.depth) :
    reactiveStage rec t a fd s ctx = (s, ctx) := by
  unfold reactiveStage
  simp [canTrigger_false_of_cap _ _ h]

theorem lethalStage_ctx_at_cap (t a : EntRef) (te ae : Entity)
    (s : RunState) (ctx : TriggerContext)
    (h : HARD_CAPS.maxTriggerChainDepth ≤ ctx.depth) :
    (lethalStage t a te ae s ctx).2.1 = ctx := by
  unfold lethalStage
  dsimp only
  split
  · simp [canTrigger_false_of_cap _ _ h]
  · rfl

theorem processDamage_ctx_at_cap (fuel : ℕ) (event : DamageEvent)
    (s : RunState) (ctx : TriggerContext)
    (h : HARD_CAPS.maxTriggerChainDepth ≤ ctx.depth) :
    (processDamage fuel event s ctx).2.2 = ctx := by
  cases fuel with
  | zero => rfl
  | succ n =>
    simp only [processDamage]
    repeat' split
    all_goals
      simp [reactiveStage_at_cap _ _ _ _ _ _ h, lethalStage_ctx_at_cap _ _ _ _ _ _ h]

theorem thornLoop_ctx_at_cap (fuel : ℕ) (pref : EntRef) (td trr : ℚ)
    (ids : List ℕ) :
    ∀ (s : RunState) (ctx : TriggerContext) (hits : List EntRef),
    HARD_CAPS.maxTriggerChainDepth ≤ ctx.depth →
    (thornLoop (processDamage fuel) pref td trr ids s ctx hits).2.1 = ctx := by
  induction ids with
  | nil => intro s ctx hits _; rfl
  | cons i rest ih =>
    intro s ctx hits h
    unfold thornLoop
    dsimp only
    split
    · rw [processDamage_ctx_at_cap _ _ _ _ h, ih _ _ _ h]
    · exact ih _ _ _ h

theorem odtThorn_ctx_at_cap (fuel : ℕ) (t : EntRef)
    (s : RunState) (ctx : TriggerContext)
    (h : HARD_CAPS.maxTriggerChainDepth ≤ ctx.depth) :
    (odtThorn (processDamage fuel) t s ctx).2 = ctx := by
  unfold odtThorn
  dsimp only
  simp only [apply_ite Prod.snd, thornLoop_ctx_at_cap _ _ _ _ _ _ _ _ h, ite_self]

theorem odt_ctx_at_cap (fuel : ℕ) (t a : EntRef) (fd : ℚ)
    (s : RunState) (ctx : TriggerContext)
    (h : HARD_CAPS.maxTriggerChainDepth ≤ ctx.depth) :
    (processOnDamageTakenTriggers (processDamage fuel) t a fd s ctx).2 = ctx := by
  unfold processOnDamageTakenTriggers
  simp only [apply_ite Prod.snd, odtThorn_ctx_at_cap _ _ _ _ h, ite_self]

/-- The context returned by `reactiveStage` when the call enters with depth 3
and no previous OnDamageTaken firing: exactly one `recordTrigger` happens,
and it is the OnDamageTaken one. -/
theorem reactiveStage_ctx_depth3 (fuel : ℕ) (t a : EntRef) (fd : ℚ)
    (s : RunState) (ctx : TriggerContext)
    (hdepth : ctx.depth = 3) (hcnt : cntOf ctx "OnDamageTaken" = 0) :
    (reactiveStage (processDamage fuel) t a fd s ctx).2 =
      recordTrigger ctx "OnDamageTaken" := by
  have hct : canTrigger ctx "OnDamageTaken" = true := by
    unfold canTrigger
    rw [hdepth, hcnt]
    rfl
  have hcap : HARD_CAPS.maxTriggerChainDepth ≤ (recordTrigger ctx "OnDamageTaken").depth := by
    rw [recordTrigger_depth, hdepth]
    decide
  unfold reactiveStage
  simp [hct, odt_ctx_at_cap _ _ _ _ _ _ hcap, canTrigger_false_of_cap _ _ hcap]

/-- C1 (amended): within one damage-pipeline call that reaches the reactive
stages, the defender-attributed "on damage taken" triggers are processed
BEFORE the attacker-attributed "on hit" triggers (the code order is
avoidance → mitigation → application → on-damage-taken → on-hit → lethal
check).  Witnessed by the shared chain budget: entering with depth 3 (one
slot left) and no previous OnDamageTaken firing, the OnDamageTaken trigger
is the one recorded (count 0 → 1, depth 3 → 4) and the OnHit trigger never
fires (its count is unchanged). -/
theorem onDamageTaken_processed_before_onHit (fuel : ℕ) (event : DamageEvent)
    (s : RunState) (ctx : TriggerContext) (tr : EntRef)
    (htr : resolveId s event.targetId = some tr)
    (har : (resolveId s event.attackerId).isSome = true)
    (halive : (refGet s tr).alive = true)
    (hinv : ¬ (refGet s tr).invulnMs > 0)
    (hdepth : ctx.depth = 3)
    (hcnt : cntOf ctx "OnDamageTaken" = 0) :
    cntOf (processDamage (fuel + 1) event s ctx).2.2 "OnDamageTaken" = 1 ∧
    cntOf (processDamage (fuel + 1) event s ctx).2.2 "OnHit" = cntOf ctx "OnHit" ∧
    (processDamage (fuel + 1) event s ctx).2.2.depth = 4 := by
  obtain ⟨ar, har⟩ := Option.isSome_iff_exists.mp har
  have hcap : HARD_CAPS.maxTriggerChainDepth ≤ (recordTrigger ctx "OnDamageTaken").depth := by
    rw [recordTrigger_depth, hdepth]
    decide
  have hctx : (processDamage (fuel + 1) event s ctx).2.2 = recordTrigger ctx "OnDamageTaken" := by
    simp only [processDamage, resolveId_ghostCalls, htr, har, refGet_ghostCalls]
    rw [if_neg (by simp [halive]), if_neg hinv]
    dsimp only
    rw [reactiveStage_ctx_depth3 _ _ _ _ _ _ hdepth hcnt,
      lethalStage_ctx_at_cap _ _ _ _ _ _ hcap]
  rw [hctx, cntOf_recordTrigger_self, hcnt,
    cntOf_recordTrigger_other _ _ _ (by decide), recordTrigger_depth, hdepth]
  exact ⟨rfl, rfl, rfl⟩

/-- Witness for the amended C1 theorem: in `orderState` with a depth-3
context, the OnDamageTaken count goes 0 → 1, the OnHit count stays 0, and
the depth reaches the cap. -/
theorem onDamageTaken_processed_before_onHit_witness :
    cntOf (processDamage 5 orderEvent orderState { depth := 3 }).2.2 "OnDamageTaken" = 1 ∧
    cntOf (processDamage 5 orderEvent orderState { depth := 3 }).2.2 "OnHit" =
      cntOf { depth := 3 } "OnHit" ∧
    (processDamage 5 orderEvent orderState { depth := 3 }).2.2.depth = 4 :=
  onDamageTaken_processed_before_onHit 4 orderEvent orderState { depth := 3 }
    .player rfl rfl rfl (by with_unfolding_all decide) rfl rfl

/-! ## Frame lemmas for the remaining pipeline stages -/

@[simp] theorem brittleExposedStage_entities_length (s : RunState) (t : EntRef)
    (te : Entity) (m : ℚ) :
    (brittleExposedStage s t te m).1.entities.length = s.entities.length := by
  unfold brittleExposedStage
  dsimp only
  simp [apply_ite Prod.fst, apply_ite RunState.entities, apply_ite List.length]

@[simp] theorem brittleExposedStage_pipelineCalls (s : RunState) (t : EntRef)
    (te : Entity) (m : ℚ) :
    (brittleExposedStage s t te m).1.pipelineCalls = s.pipelineCalls := by
  unfold brittleExposedStage
  dsimp only
  simp [apply_ite Prod.fst, apply_ite RunState.pipelineCalls]

@[simp] theorem brittleExposedStage_fuelOut (s : RunState) (t : EntRef)
    (te : Entity) (m : ℚ) :
    (brittleExposedStage s t te m).1.fuelOut = s.fuelOut := by
  unfold brittleExposedStage
  dsimp only
  simp [apply_ite Prod.fst, apply_ite RunState.fuelOut]

@[simp] theorem shieldStage_entities_length (s : RunState) (t : EntRef)
    (te : Entity) (fd : ℚ) :
    (shieldStage s t te fd).1.entities.length = s.entities.length := by
  unfold shieldStage
  dsimp only
  simp [apply_ite Prod.fst, apply_ite RunState.entities, apply_ite List.length]

@[simp] theorem shieldStage_pipelineCalls (s : RunState) (t : EntRef)
    (te : Entity) (fd : ℚ) :
    (shieldStage s t te fd).1.pipelineCalls = s.pipelineCalls := by
  unfold shieldStage
  dsimp only
  simp [apply_ite Prod.fst, apply_ite RunState.pipelineCalls]

@[simp] theorem shieldStage_fuelOut (s : RunState) (t : EntRef)
    (te : Entity) (fd : ℚ) :
    (shieldStage s t te fd).1.fuelOut = s.fuelOut := by
  unfold shieldStage
  dsimp only
  simp [apply_ite Prod.fst, apply_ite RunState.fuelOut]

@[simp] theorem odtBark_entities_length (t : EntRef) (s : RunState) :
    (odtBark t s).entities.length = s.entities.length := by
  unfold odtBark
  try dsimp only
  simp [apply_ite RunState.entities, apply_ite List.length]

@[simp] theorem odtBark_pipelineCalls (t : EntRef) (s : RunState) :
    (odtBark t s).pipelineCalls = s.pipelineCalls := by
  unfold odtBark
  try dsimp only
  simp [apply_ite RunState.pipelineCalls]

@[simp] theorem odtBark_fuelOut (t : EntRef) (s : RunState) :
    (odtBark t s).fuelOut = s.fuelOut := by
  unfold odtBark
  try dsimp only
  simp [apply_ite RunState.fuelOut]

@[simp] theorem odtBramble_entities_length (t a : EntRef) (s : RunState) :
    (odtBramble t a s).entities.length = s.entities.length := by
  unfold odtBramble
  try dsimp only
  simp [apply_ite RunState.entities, apply_ite List.length]

@[simp] theorem odtBramble_pipelineCalls (t a : EntRef) (s : RunState) :
    (odtBramble t a s).pipelineCalls = s.pipelineCalls := by
  unfold odtBramble
  try dsimp only
  simp [apply_ite RunState.pipelineCalls]

@[simp] theorem odtBramble_fuelOut (t a : EntRef) (s : RunState) :
    (odtBramble t a s).fuelOut = s.fuelOut := by
  unfold odtBramble
  try dsimp only
  simp [apply_ite RunState.fuelOut]

@[simp] theorem odtThorned_entities_length (t a : EntRef) (d : ℚ) (s : RunState) :
    (odtThorned t a d s).entities.length = s.entities.length := by
  unfold odtThorned
  try dsimp only
  simp [apply_ite RunState.entities, apply_ite List.length]

@[simp] theorem odtThorned_pipelineCalls (t a : EntRef) (d : ℚ) (s : RunState) :
    (odtThorned t a d s).pipelineCalls = s.pipelineCalls := by
  unfold odtThorned
  try dsimp only
  simp [apply_ite RunState.pipelineCalls]

@[simp] theorem odtThorned_fuelOut (t a : EntRef) (d : ℚ) (s : RunState) :
    (odtThorned t a d s).fuelOut = s.fuelOut := by
  unfold odtThorned
  try dsimp only
  simp [apply_ite RunState.fuelOut]

@[simp] theorem odtReflexes_entities_length (t a : EntRef) (d : ℚ) (s : RunState) :
    (odtReflexes t a d s).entities.length = s.entities.length := by
  unfold odtReflexes
  simp

@[simp] theorem odtReflexes_pipelineCalls (t a : EntRef) (d : ℚ) (s : RunState) :
    (odtReflexes t a d s).pipelineCalls = s.pipelineCalls := by
  unfold odtReflexes
  simp

@[simp] theorem odtReflexes_fuelOut (t a : EntRef) (d : ℚ) (s : RunState) :
    (odtReflexes t a d s).fuelOut = s.fuelOut := by
  unfold odtReflexes
  simp

/-! ## Context-evolution composition lemmas -/

theorem ctxLe_refl (c : TriggerContext) : CtxLe c c :=
  ⟨le_refl _, fun _ => le_refl _⟩

theorem ctxLe_trans {a b c : TriggerContext} (h1 : CtxLe a b) (h2 : CtxLe b c) :
    CtxLe a c :=
  ⟨le_trans h1.1 h2.1, fun k => le_trans (h1.2 k) (h2.2 k)⟩

theorem ctxCaps_refl (c : TriggerContext) : CtxCaps c c :=
  ⟨fun h => h, fun _ h => h⟩

theorem ctxCaps_trans {a b c : TriggerContext} (h1 : CtxCaps a b) (h2 : CtxCaps b c) :
    CtxCaps a c :=
  ⟨fun h => h2.1 (h1.1 h), fun k h => h2.2 k (h1.2 k h)⟩

theorem ctxLe_record (c : TriggerContext) (k : String) : CtxLe c (recordTrigger c k) := by
  refine ⟨by rw [recordTrigger_depth]; omega, fun k' => ?_⟩
  by_cases hk : k' = k
  · subst hk
    rw [cntOf_recordTrigger_self]
    omega
  · rw [cntOf_recordTrigger_other _ _ _ hk]

theorem ctxCaps_record (c : TriggerContext) (k : String)
    (h : canTrigger c k = true) : CtxCaps c (recordTrigger c k) := by
  obtain ⟨hd, hc⟩ := (canTrigger_true_iff c k).mp h
  refine ⟨fun _ => by rw [recordTrigger_depth]; omega, fun k' hk' => ?_⟩
  by_cases hk : k' = k
  · subst hk
    rw [cntOf_recordTrigger_self]
    omega
  · rw [cntOf_recordTrigger_other _ _ _ hk]
    exact hk'

/-- The trivial postcondition of an aborted pipeline call (the only state
change is the ghost pipeline-entry increment). -/
theorem postB_triv (fuel : ℕ) (s : RunState) (ctx : TriggerContext)
    (res : DamageResult) :
    PostB fuel s ctx (res, { s with pipelineCalls := s.pipelineCalls + 1 }, ctx) :=
  ⟨ctxLe_refl _, ctxCaps_refl _, rfl, le_refl _, fun _ _ => rfl⟩

/-! ## The bundle invariant, composed stage by stage -/

/-- The Thorn Mantle loop inherits the bundle facts of its recursive calls:
each iteration performs at most one nested pipeline call. -/
theorem thornLoop_bundle (rec : Recurse) (fuel : ℕ) (h : RecOk rec fuel)
    (pref : EntRef) (td trr : ℚ) (ids : List ℕ) :
    ∀ (s : RunState) (ctx : TriggerContext) (hits : List EntRef),
    CtxLe ctx (thornLoop rec pref td trr ids s ctx hits).2.1 ∧
    CtxCaps ctx (thornLoop rec pref td trr ids s ctx hits).2.1 ∧
    (thornLoop rec pref td trr ids s ctx hits).1.entities.length = s.entities.length ∧
    (thornLoop rec pref td trr ids s ctx hits).1.pipelineCalls
        + s.entities.length * cntOf ctx "OnDamageTaken"
      ≤ s.pipelineCalls + ids.length
        + s.entities.length
            * cntOf (thornLoop rec pref td trr ids s ctx hits).2.1 "OnDamageTaken" ∧
    (ctx.depth ≤ HARD_CAPS.maxTriggerChainDepth → 5 ≤ fuel + ctx.depth →
      (thornLoop rec pref td trr ids s ctx hits).1.fuelOut = s.fuelOut) := by
  induction ids with
  | nil =>
    intro s ctx hits
    unfold thornLoop
    exact ⟨ctxLe_refl _, ctxCaps_refl _, rfl, by simp, fun _ _ => rfl⟩
  | cons i rest ih =>
    intro s ctx hits
    unfold thornLoop
    dsimp only
    split
    · obtain ⟨l1, c1, e1, p1, f1⟩ :=
        h (thornDmgEvent td (refGet s (.idx i)) (refGet s pref)) s ctx
      obtain ⟨l2, c2, e2, p2, f2⟩ :=
        ih (rec (thornDmgEvent td (refGet s (.idx i)) (refGet s pref)) s ctx).2.1
          (rec (thornDmgEvent td (refGet s (.idx i)) (refGet s pref)) s ctx).2.2
          (hits ++ [EntRef.idx i])
      rw [e1] at e2 p2
      refine ⟨ctxLe_trans l1 l2, ctxCaps_trans c1 c2, e2, ?_, ?_⟩
      · simp only [List.length_cons]
        linarith
      · intro hd hf
        have hd1 := c1.1 hd
        have hf1 : 5 ≤ fuel
            + (rec (thornDmgEvent td (refGet s (.idx i)) (refGet s pref)) s ctx).2.2.depth := by
          have := l1.1
          omega
        rw [f2 hd1 hf1, f1 hd hf]
    · obtain ⟨l2, c2, e2, p2, f2⟩ := ih s ctx hits
      refine ⟨l2, c2, e2, ?_, f2⟩
      simp only [List.length_cons]
      linarith

/-- Bundle facts for the Thorn Mantle reaction: at most `entities.length`
nested pipeline calls. -/
theorem odtThorn_bundle (rec : Recurse) (fuel : ℕ) (h : RecOk rec fuel)
    (t : EntRef) (s : RunState) (ctx : TriggerContext) :
    CtxLe ctx (odtThorn rec t s ctx).2 ∧
    CtxCaps ctx (odtThorn rec t s ctx).2 ∧
    (odtThorn rec t s ctx).1.entities.length = s.entities.length ∧
    (odtThorn rec t s ctx).1.pipelineCalls
        + s.entities.length * cntOf ctx "OnDamageTaken"
      ≤ s.pipelineCalls + s.entities.length
        + s.entities.length * cntOf (odtThorn rec t s ctx).2 "OnDamageTaken" ∧
    (ctx.depth ≤ HARD_CAPS.maxTriggerChainDepth → 5 ≤ fuel + ctx.depth →
      (odtThorn rec t s ctx).1.fuelOut = s.fuelOut) := by
  unfold odtThorn
  dsimp only
  split
  · obtain ⟨l1, c1, e1, p1, f1⟩ :=
      thornLoop_bundle rec fuel h t (jOrQ (refGet s t).thornMantleDamage 8)
        (jOrQ (refGet s t).thornMantleRadius 40) (List.range s.entities.length) s ctx []
    rw [List.length_range] at p1
    split
    · refine ⟨l1, c1, by simpa using e1, ?_, ?_⟩
      · simpa using p1
      · intro hd hf
        simpa using f1 hd hf
    · exact ⟨l1, c1, e1, p1, f1⟩
  · refine ⟨ctxLe_refl _, ctxCaps_refl _, rfl, by linarith, fun _ _ => rfl⟩

/-- Bundle facts for the whole OnDamageTaken handler. -/
theorem odt_bundle (rec : Recurse) (fuel : ℕ) (h : RecOk rec fuel)
    (t a : EntRef) (d : ℚ) (s : RunState) (ctx : TriggerContext) :
    CtxLe ctx (processOnDamageTakenTriggers rec t a d s ctx).2 ∧
    CtxCaps ctx (processOnDamageTakenTriggers rec t a d s ctx).2 ∧
    (processOnDamageTakenTriggers rec t a d s ctx).1.entities.length
      = s.entities.length ∧
    (processOnDamageTakenTriggers rec t a d s ctx).1.pipelineCalls
        + s.entities.length * cntOf ctx "OnDamageTaken"
      ≤ s.pipelineCalls + s.entities.length
        + s.entities.length
            * cntOf (processOnDamageTakenTriggers rec t a d s ctx).2 "OnDamageTaken" ∧
    (ctx.depth ≤ HARD_CAPS.maxTriggerChainDepth → 5 ≤ fuel + ctx.depth →
      (processOnDamageTakenTriggers rec t a d s ctx).1.fuelOut = s.fuelOut) := by
  unfold processOnDamageTakenTriggers
  dsimp only
  split
  · obtain ⟨l1, c1, e1, p1, f1⟩ := odtThorn_bundle rec fuel h t (odtReflexes t a d s) ctx
    rw [odtReflexes_entities_length] at e1 p1
    rw [odtReflexes_pipelineCalls] at p1
    refine ⟨l1, c1, e1, p1, ?_⟩
    intro hd hf
    rw [f1 hd hf, odtReflexes_fuelOut]
  · refine ⟨ctxLe_refl _, ctxCaps_refl _, rfl, by linarith, fun _ _ => rfl⟩

/-- Bundle facts for the two reactive trigger stages (OnDamageTaken then
OnHit): the OnDamageTaken recording pays for the nested thorn calls. -/
theorem reactiveStage_bundle (rec : Recurse) (fuel : ℕ) (h : RecOk rec fuel)
    (t a : EntRef) (fd : ℚ) (s : RunState) (ctx : TriggerContext) :
    CtxLe ctx (reactiveStage rec t a fd s ctx).2 ∧
    CtxCaps ctx (reactiveStage rec t a fd s ctx).2 ∧
    (reactiveStage rec t a fd s ctx).1.entities.length = s.entities.length ∧
    (reactiveStage rec t a fd s ctx).1.pipelineCalls
        + s.entities.length * cntOf ctx "OnDamageTaken"
      ≤ s.pipelineCalls
        + s.entities.length * cntOf (reactiveStage rec t a fd s ctx).2 "OnDamageTaken" ∧
    (ctx.depth ≤ HARD_CAPS.maxTriggerChainDepth → 5 ≤ fuel + 1 + ctx.depth →
      (reactiveStage rec t a fd s ctx).1.fuelOut = s.fuelOut) := by
  unfold reactiveStage
  dsimp only
  split
  · next hodt =>
    obtain ⟨l1, c1, e1, p1, f1⟩ :=
      odt_bundle rec fuel h t a fd s (recordTrigger ctx "OnDamageTaken")
    rw [cntOf_recordTrigger_self, Nat.mul_succ] at p1
    have hl : CtxLe ctx
        (processOnDamageTakenTriggers rec t a fd s (recordTrigger ctx "OnDamageTaken")).2 :=
      ctxLe_trans (ctxLe_record _ _) l1
    have hc : CtxCaps ctx
        (processOnDamageTakenTriggers rec t a fd s (recordTrigger ctx "OnDamageTaken")).2 :=
      ctxCaps_trans (ctxCaps_record _ _ hodt) c1
    have hfo : ctx.depth ≤ HARD_CAPS.maxTriggerChainDepth → 5 ≤ fuel + 1 + ctx.depth →
        (processOnDamageTakenTriggers rec t a fd s
          (recordTrigger ctx "OnDamageTaken")).1.fuelOut = s.fuelOut := by
      intro hd hf
      obtain ⟨hdlt, _⟩ := (canTrigger_true_iff ctx "OnDamageTaken").mp hodt
      exact f1 (by rw [recordTrigger_depth]; omega) (by rw [recordTrigger_depth]; omega)
    split
    · next hoh =>
      refine ⟨ctxLe_trans hl (ctxLe_record _ _),
        ctxCaps_trans hc (ctxCaps_record _ _ hoh), by simpa using e1, ?_, ?_⟩
      · rw [cntOf_recordTrigger_other _ _ _ (by decide)]
        simp only [processOnHitTriggers_pipelineCalls]
        linarith
      · intro hd hf
        simp only [processOnHitTriggers_fuelOut]
        exact hfo hd hf
    · exact ⟨hl, hc, e1, by linarith, hfo⟩
  · split
    · next hoh =>
      refine ⟨ctxLe_record _ _, ctxCaps_record _ _ hoh, by simp, ?_, fun _ _ => by simp⟩
      rw [cntOf_recordTrigger_other _ _ _ (by decide)]
      simp only [processOnHitTriggers_pipelineCalls]
      linarith
    · exact ⟨ctxLe_refl _, ctxCaps_refl _, rfl, le_refl _, fun _ _ => rfl⟩

/-- Bundle facts for the lethal stage: the OnKill/OnDeath handlers do not
recurse, so all ghost counters are frame-preserved. -/
theorem lethalStage_bundle (t a : EntRef) (te ae : Entity)
    (s : RunState) (ctx : TriggerContext) :
    CtxLe ctx (lethalStage t a te ae s ctx).2.1 ∧
    CtxCaps ctx (lethalStage t a te ae s ctx).2.1 ∧
    (lethalStage t a te ae s ctx).1.entities.length = s.entities.length ∧
    (lethalStage t a te ae s ctx).1.pipelineCalls = s.pipelineCalls ∧
    (lethalStage t a te ae s ctx).1.fuelOut = s.fuelOut := by
  unfold lethalStage
  dsimp only
  split
  · split
    · next hok =>
      split
      · next hod =>
        exact ⟨ctxLe_trans (ctxLe_record _ _) (ctxLe_record _ _),
          ctxCaps_trans (ctxCaps_record _ _ hok) (ctxCaps_record _ _ hod),
          by simp, by simp, by simp⟩
      · exact ⟨ctxLe_record _ _, ctxCaps_record _ _ hok, by simp, by simp, by simp⟩
    · split
      · next hod =>
        exact ⟨ctxLe_record _ _, ctxCaps_record _ _ hod, by simp, by simp, by simp⟩
      · exact ⟨ctxLe_refl _, ctxCaps_refl _, by simp, by simp, by simp⟩
  · exact ⟨ctxLe_refl _, ctxCaps_refl _, rfl, rfl, rfl⟩

/-- Bundle facts for the tail of the pipeline's main branch (reactive
triggers, lethal stage, chain-depth push), relative to the pre-increment
state `s0`. -/
theorem pipelineTail_bundle (rec : Recurse) (fuel : ℕ) (h : RecOk rec fuel)
    (t a : EntRef) (te ae : Entity) (fd : ℚ) (s0 s : RunState) (ctx : TriggerContext)
    (hlen : s.entities.length = s0.entities.length)
    (hcalls : s.pipelineCalls = s0.pipelineCalls + 1)
    (hfo : s.fuelOut = s0.fuelOut) (res : DamageResult) :
    PostB (fuel + 1) s0 ctx
      (res,
        (if (lethalStage t a te ae (reactiveStage rec t a fd s ctx).1
                (reactiveStage rec t a fd s ctx).2).2.1.depth > 0 then
          { (lethalStage t a te ae (reactiveStage rec t a fd s ctx).1
                (reactiveStage rec t a fd s ctx).2).1 with
            triggerChainDepths :=
              (lethalStage t a te ae (reactiveStage rec t a fd s ctx).1
                  (reactiveStage rec t a fd s ctx).2).1.triggerChainDepths
                ++ [(lethalStage t a te ae (reactiveStage rec t a fd s ctx).1
                      (reactiveStage rec t a fd s ctx).2).2.1.depth] }
        else
          (lethalStage t a te ae (reactiveStage rec t a fd s ctx).1
            (reactiveStage rec t a fd s ctx).2).1),
        (lethalStage t a te ae (reactiveStage rec t a fd s ctx).1
          (reactiveStage rec t a fd s ctx).2).2.1) := by
  obtain ⟨l1, c1, e1, p1, f1⟩ := reactiveStage_bundle rec fuel h t a fd s ctx
  obtain ⟨l2, c2, e2, q2, f2⟩ :=
    lethalStage_bundle t a te ae (reactiveStage rec t a fd s ctx).1
      (reactiveStage rec t a fd s ctx).2
  rw [hlen] at e1 p1
  rw [hcalls] at p1
  refine ⟨ctxLe_trans l1 l2, ctxCaps_trans c1 c2, ?_, ?_, ?_⟩
  · dsimp only
    split <;> ((try dsimp only); rw [e2, e1])
  · dsimp only
    have hm := Nat.mul_le_mul_left s0.entities.length (l2.2 "OnDamageTaken")
    split <;> ((try dsimp only); linarith [q2])
  · intro hd hf
    dsimp only
    split <;> ((try dsimp only); rw [f2, f1 hd hf, hfo])

/-- The master bundle: every `processDamage` call satisfies `PostB`, by
induction on the fuel. -/
theorem processDamage_bundle (fuel : ℕ) : RecOk (processDamage fuel) fuel := by
  induction fuel with
  | zero =>
    intro ev s ctx
    refine ⟨ctxLe_refl _, ctxCaps_refl _, rfl, le_refl _, fun hd hf => ?_⟩
    have hcap : HARD_CAPS.maxTriggerChainDepth = 4 := rfl
    omega
  | succ fuel ih =>
    intro ev s ctx
    show PostB _ _ _ _
    simp only [processDamage]
    split
    · split
      · exact postB_triv _ _ _ _
      · split
        · exact postB_triv _ _ _ _
        · exact pipelineTail_bundle (processDamage fuel) fuel ih _ _ _ _ _ _ _ ctx
            (by simp) (by simp) (by simp) _
    · exact postB_triv _ _ _ _

/-- C9: inside one damage event the `TriggerContext` is threaded through
every handler and is never rolled back on return: the depth counter and all
per-kind firing counts evolve monotonically (`CtxLe`, first conjunct, for
an arbitrary entry context).  Every handler firing is guarded by
`canTrigger` and recorded by `recordTrigger` on the same shared context, so
for an externally-initiated event (fresh `newTriggerContext`, as created by
the public entry point) the final depth — which counts the total number of
trigger-handler firings, sequential and nested alike — is at most
`maxTriggerChainDepth` (4), and the final count of every single trigger
kind is at most `maxSameTriggerRepeats` (2). -/
theorem trigger_budget_shared (fuel : ℕ) (event : DamageEvent) (s : RunState) :
    (∀ ctx, CtxLe ctx (processDamage fuel event s ctx).2.2) ∧
    (processDamage fuel event s newTriggerContext).2.2.depth
      ≤ HARD_CAPS.maxTriggerChainDepth ∧
    ∀ k, cntOf (processDamage fuel event s newTriggerContext).2.2 k
      ≤ HARD_CAPS.maxSameTriggerRepeats := by
  refine ⟨fun ctx => (processDamage_bundle fuel event s ctx).1, ?_, fun k => ?_⟩
  · exact (processDamage_bundle fuel event s newTriggerContext).2.1.1 (by decide)
  · refine (processDamage_bundle fuel event s newTriggerContext).2.1.2 k ?_
    have : cntOf newTriggerContext k = 0 := rfl
    omega

/-- C2 counterexample: the number of nested pipeline calls in one event is
NOT bounded by any function of the two caps alone — with Thorn Mantle
active it scales with the number of entities.  In `thornState` (nine
enemies in thorn range, ghost call counter starting at 0) one external
`processDamage` produces 9 nested calls, exceeding
`maxTriggerChainDepth * maxSameTriggerRepeats = 8`, the largest product
expressible from the caps cited by the claim. -/
theorem nested_calls_exceed_cap_product :
    thornState.pipelineCalls = 0 ∧
    HARD_CAPS.maxTriggerChainDepth * HARD_CAPS.maxSameTriggerRepeats + 1
      < (processDamageTop thornEvent thornState).2.pipelineCalls := by
  constructor
  · rfl
  · show 8 + 1 < _
    have : (processDamageTop thornEvent thornState).2.pipelineCalls = 10 := by
      with_unfolding_all rfl
    omega

/-- C2 (amended): the trigger recursion does terminate — the fuel budget 5
of the embedding is never exhausted for an externally-initiated event (the
ghost `fuelOut` flag is untouched), and the total number of pipeline
entries is bounded, but the bound depends on the entity count as well as
on `maxSameTriggerRepeats`: at most `1 + maxSameTriggerRepeats *
entities.length` calls (each of the at most 2 OnDamageTaken firings opens
at most one nested call per entity slot). -/
theorem nested_recursion_terminates_with_entity_bound
    (event : DamageEvent) (s : RunState) :
    (processDamageTop event s).2.fuelOut = s.fuelOut ∧
    (processDamageTop event s).2.pipelineCalls
      ≤ s.pipelineCalls + 1
        + s.entities.length * HARD_CAPS.maxSameTriggerRepeats := by
  obtain ⟨l, c, e, p, f⟩ := processDamage_bundle 5 event s newTriggerContext
  constructor
  · exact f (by decide) (by decide)
  · have hcnt : cntOf (processDamage 5 event s newTriggerContext).2.2 "OnDamageTaken"
        ≤ HARD_CAPS.maxSameTriggerRepeats := by
      refine c.2 "OnDamageTaken" ?_
      have : cntOf newTriggerContext "OnDamageTaken" = 0 := rfl
      omega
    have hm := Nat.mul_le_mul_left s.entities.length hcnt
    have hz : cntOf newTriggerContext "OnDamageTaken" = 0 := rfl
    rw [hz, Nat.mul_zero] at p
    show (processDamage 5 event s newTriggerContext).2.1.pipelineCalls ≤ _
    linarith

/-- C7 (code bug): the telegraph half of the claim holds — blink applies no
part of its effect (no move, no damage, no pipeline entry) while its 0.4 s
telegraph runs, and teleports + backstabs the moment it ends — but the
completion half fails for charge: `updateActiveAbility` invokes the execute
function exactly once, at the telegraph→execute transition, when the timer
has just been set to the full `CHARGE_EXECUTE` duration, so
`executeCharge`'s interpolation progress is `1 − timer/CHARGE_EXECUTE = 0`
and its `progress ≥ 0.95` completion branch is unreachable; the execute
function is never called again during the execute phase.  Concretely: a
charge at (0,0) aimed at (60,0) runs through telegraph (0.5 s), execute
(0.35 s) and recovery (0.2 s) to completion (`activeAbility = none`), yet
the enemy never leaves (0,0), the player keeps 100 hp, and the damage
pipeline is never entered — the charge has no effect at all, contradicting
the interpolated-movement and completion-damage code of `executeCharge`. -/
theorem charge_completion_dead_code :
    ((stepAbilityN trig0 (.idx 0) 0.1 3 blinkState).player.hp = 100 ∧
     (refGet (stepAbilityN trig0 (.idx 0) 0.1 3 blinkState) (.idx 0)).pos = ⟨0, 0⟩ ∧
     (stepAbilityN trig0 (.idx 0) 0.1 3 blinkState).pipelineCalls = 0) ∧
    ((refGet (stepAbilityN trig0 (.idx 0) 0.1 4 blinkState) (.idx 0)).pos = ⟨60, 0⟩ ∧
     (stepAbilityN trig0 (.idx 0) 0.1 4 blinkState).player.hp = 85) ∧
    ((refGet (stepAbilityN trig0 (.idx 0) 0.05 25 chargeState) (.idx 0)).activeAbility = none ∧
     (refGet (stepAbilityN trig0 (.idx 0) 0.05 25 chargeState) (.idx 0)).pos = ⟨0, 0⟩ ∧
     (stepAbilityN trig0 (.idx 0) 0.05 25 chargeState).player.hp = 100 ∧
     (stepAbilityN trig0 (.idx 0) 0.05 25 chargeState).pipelineCalls = 0) := by
  refine ⟨⟨?_, ?_, ?_⟩, ⟨?_, ?_⟩, ?_, ?_, ?_, ?_⟩ <;>
    (set_option maxRecDepth 8000 in with_unfolding_all rfl)

/-! ## Slot access lemmas for the health-invariant proofs -/

theorem updIdx_get?_self (f : Entity → Entity) :
    ∀ (l : List Entity) (i : ℕ), (updIdx l i f).get? i = (l.get? i).map f := by
  intro l
  induction l with
  | nil => intro i; cases i <;> rfl
  | cons e es ih =>
    intro i
    cases i with
    | zero => rfl
    | succ n => simpa [updIdx, List.get?] using ih n

theorem updIdx_get?_ne (f : Entity → Entity) :
    ∀ (l : List Entity) (i j : ℕ), j ≠ i → (updIdx l i f).get? j = l.get? j := by
  intro l
  induction l with
  | nil => intro i j _; cases i <;> rfl
  | cons e es ih =>
    intro i j h
    cases i with
    | zero =>
      cases j with
      | zero => exact absurd rfl h
      | succ m => rfl
    | succ n =>
      cases j with
      | zero => rfl
      | succ m => simpa [updIdx, List.get?] using ih n m (fun hc => h (by rw [hc]))

theorem refGet_setRef_ne (s : RunState) (q r : EntRef) (f : Entity → Entity)
    (h : r ≠ q) : refGet (setRef s q f) r = refGet s r := by
  cases q with
  | player =>
    cases r with
    | player => exact absurd rfl h
    | idx j => rfl
  | idx i =>
    cases r with
    | player => rfl
    | idx j =>
      have hj : j ≠ i := fun hc => h (by rw [hc])
      unfold refGet getRef setRef
      dsimp only
      rw [updIdx_get?_ne _ _ _ _ hj]

theorem refGet_setRef_player (s : RunState) (f : Entity → Entity) :
    refGet (setRef s .player f) .player = f s.player := rfl

theorem refGet_setRef_idx (s : RunState) (i : ℕ) (f : Entity → Entity) :
    refGet (setRef s (.idx i) f) (.idx i) = ((s.entities.get? i).map f).getD {} := by
  unfold refGet getRef setRef
  dsimp only
  rw [updIdx_get?_self]

theorem refGet_addCombatLog (s : RunState) (t src : String)
    (tgt : Option String) (val : Option ℚ) (r : EntRef) :
    refGet (addCombatLog s t src tgt val) r = refGet s r := by
  cases r <;> rfl

/-! ## Algebra of the slot relations -/

theorem slotW_refl (e : Entity) : SlotW e e :=
  ⟨rfl, rfl, fun h => h, fun h => h, fun h _ => h⟩

theorem slotW_trans {a b c : Entity} (h1 : SlotW a b) (h2 : SlotW b c) : SlotW a c := by
  obtain ⟨m1, t1, v1, d1, p1⟩ := h1
  obtain ⟨m2, t2, v2, d2, p2⟩ := h2
  refine ⟨m2.trans m1, t2.trans t1, fun h => v1 (v2 h), fun h => d2 (d1 h), fun hb hm => ?_⟩
  have hb1 := p1 hb hm
  have := p2 (by rw [m1]; exact hb1) (by rw [m1]; exact hm)
  rwa [m1] at this

theorem slotS_refl (e : Entity) : SlotS e e :=
  ⟨slotW_refl e, fun h _ => ⟨h, fun hi => hi⟩⟩

theorem slotS_w {a b : Entity} (h : SlotS a b) : SlotW a b := h.1

theorem slotS_trans {a b c : Entity} (h1 : SlotS a b) (h2 : SlotS b c) : SlotS a c := by
  obtain ⟨w1, x1⟩ := h1
  obtain ⟨w2, x2⟩ := h2
  refine ⟨slotW_trans w1 w2, fun hz hb => ?_⟩
  obtain ⟨hz1, hi1⟩ := x1 hz hb
  have hm : 0 ≤ a.maxHp := le_trans hz hb
  have hb1 : b.hp ≤ b.maxHp := by rw [w1.1]; exact w1.2.2.2.2 hb hm
  obtain ⟨hz2, hi2⟩ := x2 hz1 hb1
  exact ⟨hz2, fun hi => hi2 (hi1 hi)⟩

theorem slotS_of_fields {e e' : Entity} (hhp : e'.hp = e.hp) (hal : e'.alive = e.alive)
    (hmx : e'.maxHp = e.maxHp) (hds : e'.damageScalar = e.damageScalar)
    (htm : e'.thornMantleDamage = e.thornMantleDamage) : SlotS e e' := by
  refine ⟨⟨hmx, htm, fun h => by rwa [hal] at h, fun h => by rwa [hds], fun hb _ => by
    rwa [hhp]⟩, fun hz hb => ⟨by rwa [hhp], fun hi ha => ?_⟩⟩
  rw [hhp]
  exact hi (by rwa [hal] at ha)

theorem allW_refl (s : RunState) : AllW s s := ⟨rfl, fun r => slotW_refl _⟩

theorem allW_trans {a b c : RunState} (h1 : AllW a b) (h2 : AllW b c) : AllW a c :=
  ⟨h2.1.trans h1.1, fun r => slotW_trans (h1.2 r) (h2.2 r)⟩

theorem allS_refl (s : RunState) : AllS s s := ⟨rfl, fun r => slotS_refl _⟩

theorem allS_trans {a b c : RunState} (h1 : AllS a b) (h2 : AllS b c) : AllS a c :=
  ⟨h2.1.trans h1.1, fun r => slotS_trans (h1.2 r) (h2.2 r)⟩

theorem allS_w {a b : RunState} (h : AllS a b) : AllW a b :=
  ⟨h.1, fun r => slotS_w (h.2 r)⟩

theorem allSx_of_allS {t : EntRef} {a b : RunState} (h : AllS a b) : AllSx t a b :=
  ⟨allS_w h, fun r _ => h.2 r⟩

theorem allS_then_allSx {t : EntRef} {a b c : RunState}
    (h1 : AllS a b) (h2 : AllSx t b c) : AllSx t a c :=
  ⟨allW_trans (allS_w h1) h2.1, fun r hr => slotS_trans (h1.2 r) (h2.2 r hr)⟩

theorem allSx_then_allS {t : EntRef} {a b c : RunState}
    (h1 : AllSx t a b) (h2 : AllS b c) : AllSx t a c :=
  ⟨allW_trans h1.1 (allS_w h2), fun r hr => slotS_trans (h1.2 r hr) (h2.2 r)⟩

/-! ## Slot relations through the state primitives -/

theorem allS_setRef (s : RunState) (q : EntRef) (f : Entity → Entity)
    (hf : ∀ e, SlotS e (f e)) : AllS s (setRef s q f) := by
  refine ⟨by simp, fun r => ?_⟩
  by_cases hr : r = q
  · subst hr
    cases r with
    | player => rw [refGet_setRef_player]; exact hf _
    | idx i =>
      rw [refGet_setRef_idx]
      have he : refGet s (.idx i) = (s.entities.get? i).getD {} := rfl
      cases h : s.entities.get? i with
      | none => rw [he, h]; exact slotS_refl _
      | some e => rw [he, h]; exact hf e
  · rw [refGet_setRef_ne _ _ _ _ hr]; exact slotS_refl _

theorem allW_setRef (s : RunState) (q : EntRef) (f : Entity → Entity)
    (hf : ∀ e, SlotW e (f e)) : AllW s (setRef s q f) := by
  refine ⟨by simp, fun r => ?_⟩
  by_cases hr : r = q
  · subst hr
    cases r with
    | player => rw [refGet_setRef_player]; exact hf _
    | idx i =>
      rw [refGet_setRef_idx]
      have he : refGet s (.idx i) = (s.entities.get? i).getD {} := rfl
      cases h : s.entities.get? i with
      | none => rw [he, h]; exact slotW_refl _
      | some e => rw [he, h]; exact hf e
  · rw [refGet_setRef_ne _ _ _ _ hr]; exact slotW_refl _

theorem allSx_setRef (s : RunState) (q : EntRef) (f : Entity → Entity)
    (hf : ∀ e, SlotW e (f e)) : AllSx q s (setRef s q f) :=
  ⟨allW_setRef s q f hf, fun r hr => by
    rw [refGet_setRef_ne _ _ _ _ hr]; exact slotS_refl _⟩

theorem allS_addCombatLog (s : RunState) (t src : String)
    (tgt : Option String := none) (val : Option ℚ := none) :
    AllS s (addCombatLog s t src tgt val) :=
  ⟨by simp, fun r => by rw [refGet_addCombatLog]; exact slotS_refl _⟩

theorem allS_ghostCalls (s : RunState) (n : ℕ) :
    AllS s { s with pipelineCalls := n } :=
  ⟨rfl, fun r => by rw [refGet_ghostCalls]; exact slotS_refl _⟩

theorem allS_player (s : RunState) (p' : Entity) (hp : SlotS s.player p') :
    AllS s { s with player := p' } :=
  ⟨rfl, fun r => by cases r with
    | player => exact hp
    | idx i => exact slotS_refl _⟩

/-! ## Entity-level steps of the combat core -/

/-- Any entity update that leaves hp, alive, maxHp, damageScalar and
thornMantleDamage alone (status flags, cooldowns, timers, …) is a strong
slot step; instances below are provable by `rfl` fields. -/
theorem slotW_of_sub {e e' : Entity} (c : ℚ) (hhp : e'.hp = e.hp - c)
    (hal : e'.alive = e.alive) (hmx : e'.maxHp = e.maxHp)
    (hds : e'.damageScalar = e.damageScalar)
    (htm : e'.thornMantleDamage = e.thornMantleDamage) (hc : 0 ≤ c) : SlotW e e' := by
  refine ⟨hmx, htm, fun h => by rwa [hal] at h, fun h => by rwa [hds],
    fun hb hm => ?_⟩
  rw [hhp]
  linarith

/-- The death stamp `hp := 0, alive := false` applied on top of any weak
evolution of a slot yields a strong one (this is how the inline kill checks
and the pipeline's lethal check restore the invariant). -/
theorem slotS_stamp_after_w {e x : Entity} (h : SlotW e x) :
    SlotS e { x with hp := 0, alive := false, animState := "death", deathAnimMs := 500 } := by
  obtain ⟨hmx, htm, _, hds, _⟩ := h
  exact ⟨⟨hmx, htm, fun hc => by simp at hc, hds, fun hb hm => hm⟩,
    fun hz hb => ⟨le_refl 0, fun _ hc => by simp at hc⟩⟩

/-- A weakly-evolved slot that ends at positive health is strongly
evolved (this is the no-kill exit of every inline kill check). -/
theorem slotS_of_w_pos {e x : Entity} (h : SlotW e x) (hx : ¬ x.hp ≤ 0) :
    SlotS e x :=
  ⟨h, fun _ _ => ⟨by linarith [lt_of_not_le hx], fun _ _ => lt_of_not_le hx⟩⟩

/-! ## The subtract-then-kill-check pattern at state level -/

theorem refGet_oob (s : RunState) (i : ℕ) (h : s.entities.get? i = none) :
    refGet s (.idx i) = {} := by
  unfold refGet getRef
  dsimp only
  rw [h]
  rfl

/-- After a weak evolution with the distinguished slot `a`, stamping `a`
dead yields a strong evolution of every slot (the kill-check branch). -/
theorem allS_clampStep {s₀ s₁ : RunState} (a : EntRef) (h01 : AllSx a s₀ s₁) :
    AllS s₀ (setRef s₁ a (fun e =>
      { e with hp := 0, alive := false, animState := "death", deathAnimMs := 500 })) := by
  refine ⟨by simpa using h01.1.1, fun r => ?_⟩
  by_cases hr : r = a
  · subst hr
    cases r with
    | player =>
      rw [refGet_setRef_player]
      exact slotS_stamp_after_w (h01.1.2 .player)
    | idx i =>
      rw [refGet_setRef_idx]
      cases h : s₁.entities.get? i with
      | none =>
        have h0 : s₀.entities.get? i = none := by
          rw [List.get?_eq_none] at h ⊢
          rw [← h01.1.1]
          exact h
        rw [refGet_oob _ _ h0]
        exact slotS_refl _
      | some e =>
        have he : refGet s₁ (.idx i) = e := by
          unfold refGet getRef
          dsimp only
          rw [h]
          rfl
        have hw := h01.1.2 (.idx i)
        rw [he] at hw
        exact slotS_stamp_after_w hw
  · rw [refGet_setRef_ne _ _ _ _ hr]
    exact h01.2 r hr

/-- After a weak evolution with the distinguished slot `a`, a failed kill
check (`a`'s health is positive) already gives a strong evolution. -/
theorem allS_noClampStep {s₀ s₁ : RunState} (a : EntRef) (h01 : AllSx a s₀ s₁)
    (hcl : ¬ (refGet s₁ a).hp ≤ 0) : AllS s₀ s₁ := by
  refine ⟨h01.1.1, fun r => ?_⟩
  by_cases hr : r = a
  · subst hr
    exact slotS_of_w_pos (h01.1.2 r) hcl
  · exact h01.2 r hr

theorem jround_nonneg {q : ℚ} (h : 0 ≤ q) : 0 ≤ jround q := by
  unfold jround
  have : (0 : ℤ) ≤ (q + 1/2).floor := by
    rw [Rat.le_floor]
    push_cast
    linarith
  exact_mod_cast this

/-! ## Per-handler slot-relation lemmas -/

theorem allS_processOnDebuffApplied (a t : EntRef) (dbt : String)
    (s : RunState) (ctx : TriggerContext) :
    AllS s (processOnDebuffAppliedTriggers a t dbt s ctx) := by
  have hf1 : ∀ e : Entity, SlotS e (applySlow e 1 4000) := fun e =>
    slotS_of_fields rfl rfl rfl rfl rfl
  have hf2 : ∀ e : Entity, SlotS e { e with packlordMark := 6000 } := fun e =>
    slotS_of_fields rfl rfl rfl rfl rfl
  unfold processOnDebuffAppliedTriggers
  dsimp only
  split
  · split
    · exact allS_trans
        (allS_trans (allS_trans (allS_setRef _ _ _ hf1) (allS_addCombatLog _ _ _ _ _))
          (allS_setRef _ _ _ hf2))
        (allS_addCombatLog _ _ _ _ _)
    · exact allS_trans (allS_setRef _ _ _ hf2) (allS_addCombatLog _ _ _ _ _)
  · split
    · exact allS_trans (allS_setRef _ _ _ hf1) (allS_addCombatLog _ _ _ _ _)
    · exact allS_refl _

theorem allS_ohFungal (aT aF : String) (d : ℚ) (s : RunState) :
    AllS s (ohFungal aT aF d s) := by
  unfold ohFungal
  dsimp only
  split
  · split
    · refine allS_trans (allS_player _ _ ?_) (allS_addCombatLog _ _ _ _ _)
      have hheal : (1 : ℚ) ≤ max 1 (jround (d * 0.15)) := le_max_left _ _
      refine ⟨⟨rfl, rfl, fun h => h, fun h => h, fun hb hm => min_le_left _ _⟩,
        fun hz hb => ⟨le_min (le_trans hz hb) (by linarith), fun hi ha => ?_⟩⟩
      have h0 := hi ha
      exact lt_min (lt_of_lt_of_le h0 hb) (by linarith)
    · exact allS_refl _
  · exact allS_refl _

theorem allS_ohVenom (a : Entity) (ar t : EntRef) (s : RunState)
    (ctx : TriggerContext) : AllS s (ohVenom a ar t s ctx) := by
  have hf : ∀ e : Entity, SlotS e
      { e with poisonStacks := min HARD_CAPS.maxPoisonStacks (e.poisonStacks + 1) } :=
    fun e => slotS_of_fields rfl rfl rfl rfl rfl
  unfold ohVenom
  dsimp only
  split
  · exact allS_trans (allS_setRef _ _ _ hf) (allS_processOnDebuffApplied _ _ _ _ _)
  · exact allS_refl _

theorem allSx_ohSpore (a : Entity) (t : EntRef) (s : RunState) :
    AllSx t s (ohSpore a t s) := by
  have hf : ∀ e : Entity, SlotW e { e with hp := e.hp - 30, flashMs := 200 } :=
    fun e => slotW_of_sub 30 rfl rfl rfl rfl rfl (by norm_num)
  unfold ohSpore
  dsimp only
  split
  · split
    · exact allSx_then_allS (allSx_setRef _ _ _ hf) (allS_addCombatLog _ _ _ _ _)
    · exact allSx_of_allS (allS_refl _)
  · exact allSx_of_allS (allS_refl _)

theorem allS_ohBrittleFury (a : Entity) (ar t : EntRef) (s : RunState)
    (ctx : TriggerContext) : AllS s (ohBrittleFury a ar t s ctx) := by
  unfold ohBrittleFury
  dsimp only
  split
  · exact allS_refl _
  · exact allS_refl _

theorem allSx_processOnHit (a t : EntRef) (d : ℚ) (s : RunState)
    (ctx : TriggerContext) : AllSx t s (processOnHitTriggers a t d s ctx) := by
  unfold processOnHitTriggers
  dsimp only
  split
  · exact allS_then_allSx (allS_ohFungal _ _ _ _)
      (allS_then_allSx (allS_ohVenom _ _ _ _ _)
        (allSx_then_allS (allSx_ohSpore _ _ _) (allS_ohBrittleFury _ _ _ _ _)))
  · exact allSx_of_allS (allS_ohFungal _ _ _ _)

theorem allS_odtBark (t : EntRef) (s : RunState) : AllS s (odtBark t s) := by
  have hf : ∀ e : Entity, SlotS e { e with barkShieldHp := 25, barkShieldCooldown := 60 } :=
    fun e => slotS_of_fields rfl rfl rfl rfl rfl
  unfold odtBark
  dsimp only
  split
  · split
    · exact allS_trans (allS_setRef _ _ _ hf) (allS_addCombatLog _ _ _ _ _)
    · exact allS_refl _
  · exact allS_refl _

theorem allS_odtBramble (t a : EntRef) (s : RunState) : AllS s (odtBramble t a s) := by
  have hsub : ∀ e : Entity, SlotW e { e with hp := e.hp - 6 } :=
    fun e => slotW_of_sub 6 rfl rfl rfl rfl rfl (by norm_num)
  have hcd : ∀ e : Entity, SlotS e { e with brambleCd := 0.5 } :=
    fun e => slotS_of_fields rfl rfl rfl rfl rfl
  unfold odtBramble
  dsimp only
  split
  · split
    · next hcl =>
      exact allS_clampStep _
        (allSx_then_allS
          (allSx_then_allS (allSx_setRef _ _ _ hsub) (allS_setRef _ _ _ hcd))
          (allS_addCombatLog _ _ _ _ _))
    · next hcl =>
      exact allS_noClampStep _
        (allSx_then_allS
          (allSx_then_allS (allSx_setRef _ _ _ hsub) (allS_setRef _ _ _ hcd))
          (allS_addCombatLog _ _ _ _ _)) hcl
  · exact allS_refl _

theorem allS_odtThorned (t a : EntRef) (d : ℚ) (s : RunState) :
    AllS s (odtThorned t a d s) := by
  unfold odtThorned
  dsimp only
  split
  · split
    · next hpos =>
      have hsub : ∀ e : Entity, SlotW e { e with hp := e.hp - jround (d * 0.25) } :=
        fun e => slotW_of_sub _ rfl rfl rfl rfl rfl (le_of_lt hpos)
      split
      · next hcl => exact allS_clampStep _ (allSx_setRef _ _ _ hsub)
      · next hcl => exact allS_noClampStep _ (allSx_setRef _ _ _ hsub) hcl
    · exact allS_refl _
  · exact allS_refl _

theorem allS_odtReflexes (t a : EntRef) (d : ℚ) (s : RunState) :
    AllS s (odtReflexes t a d s) := by
  have hsec : ∀ e : Entity, SlotS e { e with secondsSinceHit := 0 } :=
    fun e => slotS_of_fields rfl rfl rfl rfl rfl
  unfold odtReflexes
  exact allS_trans
    (allS_trans (allS_trans (allS_setRef _ _ _ hsec) (allS_odtBark _ _))
      (allS_odtBramble _ _ _))
    (allS_odtThorned _ _ _ _)

theorem allS_bleedLoop (a : EntRef) (ts : List EntRef) :
    ∀ (s : RunState) (ctx : TriggerContext), AllS s (bleedLoop a ts s ctx) := by
  have hf : ∀ e : Entity, SlotS e (applyBleed e 1) :=
    fun e => slotS_of_fields rfl rfl rfl rfl rfl
  induction ts with
  | nil => intro s ctx; exact allS_refl _
  | cons t rest ih =>
    intro s ctx
    unfold bleedLoop
    dsimp only
    split
    · exact allS_trans
        (allS_trans (allS_trans (allS_setRef _ _ _ hf) (allS_addCombatLog _ _ _ _ _))
          (allS_processOnDebuffApplied _ _ _ _ _))
        (ih _ _)
    · exact ih _ _

theorem allS_processOnAreaDamage (a : EntRef) (ts : List EntRef) (d : ℚ)
    (s : RunState) (ctx : TriggerContext) :
    AllS s (processOnAreaDamageTriggers a ts d s ctx) := by
  unfold processOnAreaDamageTriggers
  dsimp only
  split
  · split
    · exact allS_bleedLoop _ _ _ _
    · exact allS_refl _
  · exact allS_refl _

theorem allS_spreadLoop (sp : ℚ) (is : List ℕ) :
    ∀ s : RunState, AllS s (spreadLoop sp is s) := by
  have hf : ∀ e : Entity, SlotS e
      { e with poisonStacks := min HARD_CAPS.maxPoisonStacks (e.poisonStacks + sp) } :=
    fun e => slotS_of_fields rfl rfl rfl rfl rfl
  induction is with
  | nil => intro s; exact allS_refl _
  | cons i rest ih =>
    intro s
    unfold spreadLoop
    exact allS_trans (allS_setRef _ _ _ hf) (ih _)

theorem allS_processOnKill (a t : EntRef) (s : RunState) (ctx : TriggerContext) :
    AllS s (processOnKillTriggers a t s ctx) := by
  have hferal : ∀ p : Entity, SlotS p
      { p with damageScalar := min (p.damageScalar + 0.08) (1.0 + 0.08 * 5) } := by
    intro p
    refine ⟨⟨rfl, rfl, fun h => h, fun h => le_min (by linarith) (by norm_num),
      fun hb _ => hb⟩, fun hz hb => ⟨hz, fun hi => hi⟩⟩
  unfold processOnKillTriggers
  dsimp only
  split
  · by_cases hC1 : activePassive s.player "feral_momentum" = true
    · simp only [if_pos hC1]
      split
      · split
        · split
          · exact allS_trans (allS_player _ _ (hferal _)) (allS_spreadLoop _ _ _)
          · exact allS_player _ _ (hferal _)
        · exact allS_player _ _ (hferal _)
      · exact allS_player _ _ (hferal _)
    · simp only [if_neg hC1]
      split
      · split
        · split
          · exact allS_spreadLoop _ _ _
          · exact allS_refl _
        · exact allS_refl _
      · exact allS_refl _
  · exact allS_refl _

theorem allS_blossomLoop (is : List ℕ) :
    ∀ s : RunState, AllS s (blossomLoop is s) := by
  have hsub : ∀ e : Entity, SlotW e { e with hp := e.hp - 15, flashMs := 100 } :=
    fun e => slotW_of_sub 15 rfl rfl rfl rfl rfl (by norm_num)
  induction is with
  | nil => intro s; exact allS_refl _
  | cons i rest ih =>
    intro s
    unfold blossomLoop
    dsimp only
    refine allS_trans ?_ (ih _)
    split
    · next hcl => exact allS_clampStep _ (allSx_setRef _ _ _ hsub)
    · next hcl => exact allS_noClampStep _ (allSx_setRef _ _ _ hsub) hcl

theorem allS_processOnDeath (t a : EntRef) (s : RunState) (ctx : TriggerContext) :
    AllS s (processOnDeathTriggers t a s ctx) := by
  unfold processOnDeathTriggers
  dsimp only
  split
  · split
    · exact allS_blossomLoop _ _
    · exact allS_refl _
  · exact allS_refl _

theorem allSx_trans {t : EntRef} {a b c : RunState}
    (h1 : AllSx t a b) (h2 : AllSx t b c) : AllSx t a c :=
  ⟨allW_trans h1.1 h2.1, fun r hr => slotS_trans (h1.2 r hr) (h2.2 r hr)⟩

theorem allS_tcd (s : RunState) (l : List ℕ) :
    AllS s { s with triggerChainDepths := l } :=
  ⟨rfl, fun r => by cases r <;> exact slotS_refl _⟩

theorem allS_onKillFired (s : RunState) (l : List String) :
    AllS s { s with onKillFired := l } :=
  ⟨rfl, fun r => by cases r <;> exact slotS_refl _⟩

theorem allS_onDeathFired (s : RunState) (l : List String) :
    AllS s { s with onDeathFired := l } :=
  ⟨rfl, fun r => by cases r <;> exact slotS_refl _⟩

theorem dsTmdR_of_allW {s s' : RunState} (hdt : DsTmdR s) (h : AllW s s') :
    DsTmdR s' := by
  intro r
  obtain ⟨_, htm, _, hds, _⟩ := h.2 r
  exact ⟨hds (hdt r).1, by rw [htm]; exact (hdt r).2⟩

theorem jOrQ_nonneg {q : ℚ} (d : ℚ) (hq : 0 ≤ q) (hd : 0 ≤ d) : 0 ≤ jOrQ q d := by
  unfold jOrQ
  split <;> assumption

theorem mitigationStage_nonneg (s : RunState) (event : DamageEvent)
    (te ae : Entity) (hbd : 0 ≤ event.baseDamage) (hds : 0 ≤ ae.damageScalar) :
    0 ≤ mitigationStage s event te ae := by
  unfold mitigationStage armorMitigate
  dsimp only
  have h1 : (0:ℚ) ≤ 1 := by norm_num
  repeat' split
  all_goals positivity

theorem allS_brittleExposedStage (s : RunState) (t : EntRef) (te : Entity) (m : ℚ) :
    AllS s (brittleExposedStage s t te m).1 := by
  have hf : ∀ e : Entity, SlotS e { e with brittle := false, brittleDuration := none } :=
    fun e => slotS_of_fields rfl rfl rfl rfl rfl
  unfold brittleExposedStage
  dsimp only
  split <;> split
  all_goals
    first
      | exact allS_trans (allS_setRef _ _ _ hf) (allS_addCombatLog _ _ _ _ _)
      | exact allS_refl _

theorem brittleExposedStage_snd_nonneg (s : RunState) (t : EntRef) (te : Entity)
    {m : ℚ} (hm : 0 ≤ m) : 0 ≤ (brittleExposedStage s t te m).2 := by
  unfold brittleExposedStage
  dsimp only
  repeat' split
  all_goals positivity

theorem allS_shieldStage (s : RunState) (t : EntRef) (te : Entity) (fd : ℚ) :
    AllS s (shieldStage s t te fd).1 := by
  unfold shieldStage
  dsimp only
  repeat' split
  all_goals
    first
      | exact allS_trans (allS_setRef _ _ _
          (fun e => slotS_of_fields rfl rfl rfl rfl rfl)) (allS_addCombatLog _ _ _ _ _)
      | exact allS_setRef _ _ _ (fun e => slotS_of_fields rfl rfl rfl rfl rfl)
      | exact allS_refl _

theorem shieldStage_snd_nonneg (s : RunState) (t : EntRef) (te : Entity)
    {fd : ℚ} (hfd : 0 ≤ fd) : 0 ≤ (shieldStage s t te fd).2 := by
  unfold shieldStage
  dsimp only
  repeat' split
  all_goals
    (try dsimp only)
  all_goals
    first
      | assumption
      | (have hmr := min_le_right (refGet s t).barkShieldHp fd; linarith)

theorem allS_thornLoop (rec : Recurse)
    (hrec : ∀ ev s ctx, 0 ≤ ev.baseDamage → DsTmdR s →
      AllS s (rec ev s ctx).2.1)
    (pref : EntRef) (td trr : ℚ) (htd : 0 ≤ td) (ids : List ℕ) :
    ∀ (s : RunState) (ctx : TriggerContext) (hits : List EntRef), DsTmdR s →
      AllS s (thornLoop rec pref td trr ids s ctx hits).1 := by
  induction ids with
  | nil => intro s ctx hits _; exact allS_refl _
  | cons i rest ih =>
    intro s ctx hits hdt
    unfold thornLoop
    dsimp only
    split
    · have hbd : 0 ≤ (thornDmgEvent td (refGet s (.idx i)) (refGet s pref)).baseDamage :=
        mul_nonneg htd (hdt pref).1
      have h1 : AllS s (rec (thornDmgEvent td (refGet s (.idx i)) (refGet s pref)) s ctx).2.1 :=
        hrec _ _ _ hbd hdt
      exact allS_trans h1 (ih _ _ _ (dsTmdR_of_allW hdt (allS_w h1)))
    · exact ih _ _ _ hdt

theorem allS_odtThorn (rec : Recurse)
    (hrec : ∀ ev s ctx, 0 ≤ ev.baseDamage → DsTmdR s →
      AllS s (rec ev s ctx).2.1)
    (t : EntRef) (s : RunState) (ctx : TriggerContext) (hdt : DsTmdR s) :
    AllS s (odtThorn rec t s ctx).1 := by
  unfold odtThorn
  dsimp only
  split
  · have htd : 0 ≤ jOrQ (refGet s t).thornMantleDamage 8 :=
      jOrQ_nonneg 8 (hdt t).2 (by norm_num)
    have h1 := allS_thornLoop rec hrec t
      (jOrQ (refGet s t).thornMantleDamage 8) (jOrQ (refGet s t).thornMantleRadius 40)
      htd (List.range s.entities.length) s ctx [] hdt
    split
    · dsimp only
      exact allS_trans (allS_trans h1 (allS_addCombatLog _ _ _ _ _))
        (allS_processOnAreaDamage _ _ _ _ _)
    · exact h1
  · exact allS_refl _

theorem allS_odt (rec : Recurse)
    (hrec : ∀ ev s ctx, 0 ≤ ev.baseDamage → DsTmdR s →
      AllS s (rec ev s ctx).2.1)
    (t a : EntRef) (d : ℚ) (s : RunState) (ctx : TriggerContext) (hdt : DsTmdR s) :
    AllS s (processOnDamageTakenTriggers rec t a d s ctx).1 := by
  unfold processOnDamageTakenTriggers
  dsimp only
  split
  · have h1 := allS_odtReflexes t a d s
    exact allS_trans h1
      (allS_odtThorn rec hrec t _ ctx (dsTmdR_of_allW hdt (allS_w h1)))
  · exact allS_refl _

theorem allSx_reactiveStage (rec : Recurse)
    (hrec : ∀ ev s ctx, 0 ≤ ev.baseDamage → DsTmdR s →
      AllS s (rec ev s ctx).2.1)
    (t a : EntRef) (fd : ℚ) (s : RunState) (ctx : TriggerContext) (hdt : DsTmdR s) :
    AllSx t s (reactiveStage rec t a fd s ctx).1 := by
  unfold reactiveStage
  dsimp only
  split
  · have h1 := allS_odt rec hrec t a fd s (recordTrigger ctx "OnDamageTaken") hdt
    split
    · dsimp only
      exact allS_then_allSx h1 (allSx_processOnHit _ _ _ _ _)
    · exact allSx_of_allS h1
  · split
    · dsimp only
      exact allSx_processOnHit _ _ _ _ _
    · dsimp only
      exact allSx_of_allS (allS_refl _)

theorem allS_lethalStage (t a : EntRef) (te ae : Entity) {s₀ : RunState}
    (s : RunState) (ctx : TriggerContext) (h : AllSx t s₀ s) :
    AllS s₀ (lethalStage t a te ae s ctx).1 := by
  unfold lethalStage
  dsimp only
  split
  · next hk =>
    have hs' : AllS s₀ (setRef s t (fun e =>
        { e with hp := 0, alive := false, animState := "death", deathAnimMs := 500 })) :=
      allS_clampStep t h
    dsimp only
    repeat' split
    all_goals
      (try dsimp only)
    · exact allS_trans
        (allS_trans
          (allS_trans
            (allS_trans (allS_trans hs' (allS_onKillFired _ _)) (allS_processOnKill _ _ _ _))
            (allS_onDeathFired _ _))
          (allS_processOnDeath _ _ _ _))
        (allS_addCombatLog _ _ _ _ _)
    · exact allS_trans
        (allS_trans (allS_trans hs' (allS_onKillFired _ _)) (allS_processOnKill _ _ _ _))
        (allS_addCombatLog _ _ _ _ _)
    · exact allS_trans
        (allS_trans (allS_trans hs' (allS_onDeathFired _ _)) (allS_processOnDeath _ _ _ _))
        (allS_addCombatLog _ _ _ _ _)
    · exact allS_trans hs' (allS_addCombatLog _ _ _ _ _)
  · next hk =>
    simp only [decide_eq_true_eq] at hk
    dsimp only
    exact allS_noClampStep t h hk

/-- The reactive + lethal + chain-depth-push tail of the pipeline's main
branch preserves every slot strongly, given the head of the pipeline
evolved every slot weakly (strongly except the target). -/
theorem allS_pipelineTail (rec : Recurse)
    (hrec : ∀ ev s ctx, 0 ≤ ev.baseDamage → DsTmdR s →
      AllS s (rec ev s ctx).2.1)
    (t a : EntRef) (te ae : Entity) (fd : ℚ)
    {s0 : RunState} (s : RunState) (ctx : TriggerContext)
    (h0 : AllSx t s0 s) (hdt0 : DsTmdR s0) :
    AllS s0 (if (lethalStage t a te ae (reactiveStage rec t a fd s ctx).1
          (reactiveStage rec t a fd s ctx).2).2.1.depth > 0 then
        { (lethalStage t a te ae (reactiveStage rec t a fd s ctx).1
            (reactiveStage rec t a fd s ctx).2).1 with
          triggerChainDepths :=
            (lethalStage t a te ae (reactiveStage rec t a fd s ctx).1
                (reactiveStage rec t a fd s ctx).2).1.triggerChainDepths
              ++ [(lethalStage t a te ae (reactiveStage rec t a fd s ctx).1
                    (reactiveStage rec t a fd s ctx).2).2.1.depth] }
      else (lethalStage t a te ae (reactiveStage rec t a fd s ctx).1
          (reactiveStage rec t a fd s ctx).2).1) := by
  have hdt : DsTmdR s := dsTmdR_of_allW hdt0 h0.1
  have hx : AllSx t s0 (reactiveStage rec t a fd s ctx).1 :=
    allSx_trans h0 (allSx_reactiveStage rec hrec t a fd s ctx hdt)
  have hl : AllS s0 (lethalStage t a te ae (reactiveStage rec t a fd s ctx).1
      (reactiveStage rec t a fd s ctx).2).1 :=
    allS_lethalStage t a te ae _ _ hx
  split
  · exact allS_trans hl (allS_tcd _ _)
  · exact hl

/-- C4 master induction: one `processDamage` call evolves every entity slot
strongly (box preservation, alive monotone, stat sanity). -/
theorem allS_processDamage (fuel : ℕ) :
    ∀ (ev : DamageEvent) (s : RunState) (ctx : TriggerContext),
      0 ≤ ev.baseDamage → DsTmdR s →
      AllS s (processDamage fuel ev s ctx).2.1 := by
  induction fuel with
  | zero =>
    intro ev s ctx _ _
    exact allS_ghostCalls s (s.pipelineCalls + 1)
  | succ fuel ih =>
    intro ev s ctx hbd hdt
    simp only [processDamage]
    split
    · split
      · dsimp only
        exact allS_ghostCalls s _
      · split
        · dsimp only
          exact allS_ghostCalls s _
        · dsimp only
          have hdt1 : DsTmdR { s with pipelineCalls := s.pipelineCalls + 1 } :=
            dsTmdR_of_allW hdt (allS_w (allS_ghostCalls s _))
          refine allS_pipelineTail (processDamage fuel) ih _ _ _ _ _ _ ctx ?_ hdt
          refine allSx_then_allS
            (allS_then_allSx
              (allS_trans
                (allS_trans (allS_ghostCalls _ _) (allS_brittleExposedStage _ _ _ _))
                (allS_shieldStage _ _ _ _))
              (allSx_setRef _ _ _ ?_))
            (allS_addCombatLog _ _ _ _ _)
          exact fun e => slotW_of_sub _ rfl rfl rfl rfl rfl
            (shieldStage_snd_nonneg _ _ _ (jround_nonneg
              (brittleExposedStage_snd_nonneg _ _ _
                (mitigationStage_nonneg _ _ _ _ hbd (hdt1 _).1))))
    · dsimp only
      exact allS_ghostCalls s _

theorem allS_taxonomy (s : RunState) (m : List (String × ℕ)) :
    AllS s { s with deathCauseTaxonomy := m } :=
  ⟨rfl, fun r => by cases r <;> exact slotS_refl _⟩

theorem allS_poisonLoop (dt : ℚ) (hdt : 0 ≤ dt) (is : List ℕ) :
    ∀ s : RunState, AllS s (poisonLoop dt is s) := by
  induction is with
  | nil => intro s; exact allS_refl _
  | cons i rest ih =>
    intro s
    unfold poisonLoop
    dsimp only
    split
    · exact ih s
    · split
      · next hps =>
        have hfsub : ∀ e : Entity, SlotW e
            { e with hp := e.hp - (refGet s (.idx i)).poisonStacks * 2 * dt } :=
          fun e => slotW_of_sub _ rfl rfl rfl rfl rfl
            (mul_nonneg (mul_nonneg (le_of_lt hps) (by norm_num)) hdt)
        refine allS_trans ?_ (ih _)
        split
        · next hcl =>
          exact allS_trans
            (allS_trans (allS_clampStep _ (allSx_setRef _ _ _ hfsub))
              (allS_addCombatLog _ _ _ _ _))
            (allS_taxonomy _ _)
        · next hcl =>
          exact allS_noClampStep _ (allSx_setRef _ _ _ hfsub) hcl
      · exact ih s

theorem allS_processPoison (s : RunState) (dt : ℚ) (hdt : 0 ≤ dt) :
    AllS s (processPoison s dt) :=
  allS_poisonLoop dt hdt _ s

theorem allS_bleedTickLoop (is : List ℕ) :
    ∀ s : RunState, AllS s (bleedTickLoop is s) := by
  induction is with
  | nil => intro s; exact allS_refl _
  | cons i rest ih =>
    intro s
    unfold bleedTickLoop
    dsimp only
    split
    · exact ih s
    · split
      · next hbs =>
        have hfsub : ∀ e : Entity, SlotW e
            { e with hp := e.hp - jOr (refGet s (.idx i)).bleedStacks, flashMs := 150 } :=
          fun e => slotW_of_sub _ rfl rfl rfl rfl rfl (le_of_lt hbs)
        have hfred : ∀ e : Entity, SlotS e
            { e with bleedStacks := some (max 0 (jOr (refGet s (.idx i)).bleedStacks - 1)) } :=
          fun e => slotS_of_fields rfl rfl rfl rfl rfl
        have hx : AllSx (.idx i) s (setRef (addCombatLog (setRef s (.idx i)
            (fun e => { e with hp := e.hp - jOr (refGet s (.idx i)).bleedStacks, flashMs := 150 }))
              "damage" "bleed" (some (refGet s (.idx i)).id)
              (some (jOr (refGet s (.idx i)).bleedStacks))) (.idx i)
            (fun e => { e with bleedStacks := some (max 0 (jOr (refGet s (.idx i)).bleedStacks - 1)) })) :=
          allSx_then_allS (allSx_setRef _ _ _ hfsub)
            (allS_trans (allS_addCombatLog _ _ _ _ _) (allS_setRef _ _ _ hfred))
        refine allS_trans ?_ (ih _)
        split
        · next hcl =>
          have hst := allS_clampStep _ hx
          split
          · exact allS_trans (allS_trans hst (allS_addCombatLog _ _ _ _ _)) (allS_taxonomy _ _)
          · exact hst
        · next hcl =>
          exact allS_noClampStep _ hx hcl
      · exact ih s

theorem allS_processBleed (s : RunState) : AllS s (processBleed s) :=
  allS_bleedTickLoop _ s

theorem dsTmdR_of_ok {s : RunState} (h : DsTmdOk s) : DsTmdR s := by
  intro r
  cases r with
  | player => exact h.1
  | idx i =>
    cases hg : s.entities.get? i with
    | none =>
      rw [refGet_oob _ _ hg]
      exact ⟨by norm_num, le_refl 0⟩
    | some e =>
      have he : refGet s (.idx i) = e := by
        unfold refGet getRef
        dsimp only
        rw [hg]
        rfl
      rw [he]
      exact h.2 e (List.get?_mem hg)

theorem stBox_out {s s' : RunState} (hbox : StBox s) (h : AllS s s') : StBox s' := by
  constructor
  · have hs := h.2 .player
    obtain ⟨hz, hb, hi⟩ := hbox.1
    obtain ⟨⟨hmx, _, _, _, hw⟩, hboxp⟩ := hs
    obtain ⟨hz', hi'⟩ := hboxp hz hb
    exact ⟨hz', le_trans (hw hb (le_trans hz hb)) (le_of_eq hmx.symm), hi' hi⟩
  · intro e' he'
    obtain ⟨n, hn⟩ := List.mem_iff_get?.mp he'
    cases hg : s.entities.get? n with
    | none =>
      rw [List.get?_eq_none] at hg
      have : n < s'.entities.length := (List.get?_eq_some.mp hn).1
      rw [h.1] at this
      omega
    | some e0 =>
      have he0 : refGet s (.idx n) = e0 := by
        unfold refGet getRef
        dsimp only
        rw [hg]
        rfl
      have he1 : refGet s' (.idx n) = e' := by
        unfold refGet getRef
        dsimp only
        rw [hn]
        rfl
      have hs := h.2 (.idx n)
      rw [he0, he1] at hs
      obtain ⟨hz, hb, hi⟩ := hbox.2 e0 (List.get?_mem hg)
      obtain ⟨⟨hmx, _, _, _, hw⟩, hboxp⟩ := hs
      obtain ⟨hz', hi'⟩ := hboxp hz hb
      exact ⟨hz', le_trans (hw hb (le_trans hz hb)) (le_of_eq hmx.symm), hi' hi⟩

/-- C4: every operation of the combat core — a full damage-pipeline call
(`processDamageTop`), a poison tick (`processPoison`) and a bleed tick
(`processBleed`) — preserves the per-entity invariant `EntityBox`: health
stays in `[0, maxHealth]`, and an entity is never left with non-positive
health while its alive flag is still set (`alive → 0 < hp`); together with
the alive-monotonicity conjuncts (an entity is never revived) this is the
"dies exactly once, exactly when health first reaches ≤ 0" property.
Provisos reflecting the call sites: the incoming damage event carries a
non-negative base damage, the poison tick is given a non-negative time
step, and the damage stats fed back into nested thorn events
(`damageScalar`, `_thornMantleDamage`) are non-negative (`DsTmdOk`).
Entities may be left transiently below 0 hp inside the pipeline (e.g. by
Spore Sac), but the lethal check restores the invariant before the call
returns. -/
theorem combat_core_preserves_health_invariant (event : DamageEvent)
    (s : RunState) (dt : ℚ) (hbd : 0 ≤ event.baseDamage) (hok : DsTmdOk s)
    (hbox : StBox s) (hdt : 0 ≤ dt) :
    (StBox (processDamageTop event s).2 ∧
      ∀ r : EntRef, (refGet (processDamageTop event s).2 r).alive = true →
        (refGet s r).alive = true) ∧
    (StBox (processPoison s dt) ∧
      ∀ r : EntRef, (refGet (processPoison s dt) r).alive = true →
        (refGet s r).alive = true) ∧
    (StBox (processBleed s) ∧
      ∀ r : EntRef, (refGet (processBleed s) r).alive = true →
        (refGet s r).alive = true) := by
  have h1 : AllS s (processDamageTop event s).2 :=
    allS_processDamage 5 event s newTriggerContext hbd (dsTmdR_of_ok hok)
  have h2 := allS_processPoison s dt hdt
  have h3 := allS_processBleed s
  exact ⟨⟨stBox_out hbox h1, fun r => (h1.2 r).1.2.2.1⟩,
    ⟨stBox_out hbox h2, fun r => (h2.2 r).1.2.2.1⟩,
    ⟨stBox_out hbox h3, fun r => (h3.2 r).1.2.2.1⟩⟩

/-- Witness for C4 at a concrete input: Scenario B's state and hit, with a
one-second tick. -/
theorem combat_core_preserves_health_invariant_witness :
    (StBox (processDamageTop scBEvent scBState).2 ∧
      ∀ r : EntRef, (refGet (processDamageTop scBEvent scBState).2 r).alive = true →
        (refGet scBState r).alive = true) ∧
    (StBox (processPoison scBState 1) ∧
      ∀ r : EntRef, (refGet (processPoison scBState 1) r).alive = true →
        (refGet scBState r).alive = true) ∧
    (StBox (processBleed scBState) ∧
      ∀ r : EntRef, (refGet (processBleed scBState) r).alive = true →
        (refGet scBState r).alive = true) :=
  combat_core_preserves_health_invariant scBEvent scBState 1
    (by with_unfolding_all decide)
    (by unfold DsTmdOk; with_unfolding_all decide)
    (by unfold StBox EntityBox; with_unfolding_all decide)
    (by norm_num)

/-! ## Death-trigger accounting (C6) -/

@[simp] theorem poisonLoop_onKillFired (dt : ℚ) (is : List ℕ) :
    ∀ s : RunState, (poisonLoop dt is s).onKillFired = s.onKillFired := by
  induction is with
  | nil => intro s; rfl
  | cons i rest ih =>
    intro s
    unfold poisonLoop
    dsimp only
    simp [ih, apply_ite RunState.onKillFired]

@[simp] theorem poisonLoop_onDeathFired (dt : ℚ) (is : List ℕ) :
    ∀ s : RunState, (poisonLoop dt is s).onDeathFired = s.onDeathFired := by
  induction is with
  | nil => intro s; rfl
  | cons i rest ih =>
    intro s
    unfold poisonLoop
    dsimp only
    simp [ih, apply_ite RunState.onDeathFired]

@[simp] theorem bleedTickLoop_onKillFired (is : List ℕ) :
    ∀ s : RunState, (bleedTickLoop is s).onKillFired = s.onKillFired := by
  induction is with
  | nil => intro s; rfl
  | cons i rest ih =>
    intro s
    unfold bleedTickLoop
    dsimp only
    simp [ih, apply_ite RunState.onKillFired]

@[simp] theorem bleedTickLoop_onDeathFired (is : List ℕ) :
    ∀ s : RunState, (bleedTickLoop is s).onDeathFired = s.onDeathFired := by
  induction is with
  | nil => intro s; rfl
  | cons i rest ih =>
    intro s
    unfold bleedTickLoop
    dsimp only
    simp [ih, apply_ite RunState.onDeathFired]

/-- C6 counterexample: a death from a poison tick fires NEITHER the on-kill
nor the on-death handlers.  In `poisonDeathState` the enemy `e1` (1 hp,
5 poison stacks) dies to one 1-second poison tick: it ends dead, yet the
ghost markers recording every invocation of `processOnKillTriggers` /
`processOnDeathTriggers` stay empty, and the player's Feral Momentum
on-kill passive — active, and worth +0.08 damage scalar on a pipeline
kill — is never applied (scalar stays 1). -/
theorem dot_death_fires_no_death_triggers :
    (refGet (processPoison poisonDeathState 1) (.idx 0)).alive = false ∧
    (processPoison poisonDeathState 1).onKillFired = [] ∧
    (processPoison poisonDeathState 1).onDeathFired = [] ∧
    activePassive (processPoison poisonDeathState 1).player "feral_momentum" = true ∧
    (processPoison poisonDeathState 1).player.damageScalar = 1 := by
  refine ⟨?_, ?_, ?_, ?_, ?_⟩ <;> with_unfolding_all rfl

/-- C6 (amended): only deaths detected by the damage pipeline's lethal
check fire the on-kill/on-death handlers.  A pipeline kill fires each
exactly once (ghost markers `["e1"]`, Feral Momentum applied: scalar
1 → 1.08 = 27/25), while poison and bleed ticks kill inline and fire
neither handler for ANY input state (the ghost markers are untouched). -/
theorem death_triggers_fire_only_in_pipeline :
    (∀ (s : RunState) (dt : ℚ),
      (processPoison s dt).onKillFired = s.onKillFired ∧
      (processPoison s dt).onDeathFired = s.onDeathFired) ∧
    (∀ s : RunState,
      (processBleed s).onKillFired = s.onKillFired ∧
      (processBleed s).onDeathFired = s.onDeathFired) ∧
    (refGet (processDamageTop pipelineKillEvent pipelineKillState).2 (.idx 0)).alive = false ∧
    (processDamageTop pipelineKillEvent pipelineKillState).2.onKillFired = ["e1"] ∧
    (processDamageTop pipelineKillEvent pipelineKillState).2.onDeathFired = ["e1"] ∧
    (processDamageTop pipelineKillEvent pipelineKillState).2.player.damageScalar = 27/25 := by
  refine ⟨fun s dt => ⟨?_, ?_⟩, fun s => ⟨?_, ?_⟩, ?_, ?_, ?_, ?_⟩
  · exact poisonLoop_onKillFired _ _ _
  · exact poisonLoop_onDeathFired _ _ _
  · exact bleedTickLoop_onKillFired _ _
  · exact bleedTickLoop_onDeathFired _ _
  · with_unfolding_all rfl
  · with_unfolding_all rfl
  · with_unfolding_all rfl
  · with_unfolding_all rfl

end Glyphdelve
